import Mathlib

/-!
Verification of the speech-scoring engine of this repository
(`analysis/speech_analyzer.py` and `analysis/pronunciation_analyzer.py`).

Modelling conventions:
* Python floats are modelled as exact rationals (`ℚ`); the single use of
  `numpy.std` (a square root) is modelled over `ℝ`.
* Python strings are Lean `String`s; `str.split()`, `str.lower()`, `str.strip()`
  and regular-expression based splitting/stripping are modelled character by
  character (ASCII case folding, as all inputs of interest are ASCII).
* `difflib.SequenceMatcher.ratio()` is modelled as the Ratcliff/Obershelp
  matching-block ratio with difflib's first-longest-match tie-breaking and
  without the autojunk heuristic (which only triggers on inputs of length
  at least 200).
* `round(x, 2)` is modelled as exact round-half-to-even at two decimals.
-/

/-! ## Python string primitives -/

/-- Whitespace characters recognised by Python's `str.split()` / `str.strip()`. -/
def pySpace (c : Char) : Bool :=
  c == ' ' || c == '\t' || c == '\n' || c == '\r' || c == '\x0b' || c == '\x0c'

/-- ASCII lower-casing, modelling Python's `str.lower()`. -/
def pyLower (s : String) : String := String.mk (s.data.map Char.toLower)

/-- Accumulator-style tokenizer underlying `pySplit`. -/
def pyWordsAux : List Char → List Char → List (List Char)
  | [], acc => if acc.isEmpty then [] else [acc.reverse]
  | c :: cs, acc =>
      if pySpace c then
        if acc.isEmpty then pyWordsAux cs [] else acc.reverse :: pyWordsAux cs []
      else pyWordsAux cs (c :: acc)

/-- Python's `str.split()` with no argument: split on runs of whitespace,
discarding empty tokens. -/
def pySplit (s : String) : List String := (pyWordsAux s.data []).map String.mk

/-- Split a character list at every character satisfying `p`, keeping empty
segments (like `re.split` on a single-character class, or `str.split(sep)`). -/
def splitAnyAux (p : Char → Bool) : List Char → List Char → List (List Char)
  | [], acc => [acc.reverse]
  | c :: cs, acc =>
      if p c then acc.reverse :: splitAnyAux p cs [] else splitAnyAux p cs (c :: acc)

/-- Python's `str.strip()` on a character list. -/
def pyStrip (l : List Char) : List Char :=
  ((l.dropWhile pySpace).reverse.dropWhile pySpace).reverse

/-- Sentence-ending characters used by the analyzer's `re.split(r'[.!?]+', text)`. -/
def sentEnd (c : Char) : Bool := c == '.' || c == '!' || c == '?'

/-- The analyzer's sentence splitting:
`[s.strip() for s in re.split(r'[.!?]+', text) if s.strip()]`.
Splitting on every single terminator instead of on runs only introduces empty
segments, which the strip-and-filter step removes. -/
def sentenceSplit (s : String) : List String :=
  ((splitAnyAux sentEnd s.data []).map (fun l => String.mk (pyStrip l))).filter
    (fun x => x != "")

/-- Test whether `n` occurs as a leading block of `h` (character lists). -/
def charsLead : List Char → List Char → Bool
  | [], _ => true
  | _ :: _, [] => false
  | a :: as, b :: bs => a == b && charsLead as bs

/-- Test whether `n` occurs as a contiguous block anywhere in the list. -/
def charsSub (n : List Char) : List Char → Bool
  | [] => n.isEmpty
  | c :: cs => charsLead n (c :: cs) || charsSub n cs

/-- Python's substring test `needle in hay`. -/
def strIn (needle hay : String) : Bool := charsSub needle.data hay.data

/-! ## Rounding to two decimals -/

/-- Round half to even, to the nearest integer. -/
def halfEven {α : Type} [LinearOrderedField α] [FloorRing α] (x : α) : ℤ :=
  if x - (Int.floor x : α) < 1/2 then Int.floor x
  else if (1 : α)/2 < x - (Int.floor x : α) then Int.floor x + 1
  else if Int.floor x % 2 = 0 then Int.floor x else Int.floor x + 1

/-- Python's `round(x, 2)` on the exact value: round half to even at two
decimal places. -/
def pyRound2 {α : Type} [LinearOrderedField α] [FloorRing α] (x : α) : α :=
  ((halfEven (x * 100) : ℤ) : α) / 100

theorem halfEven_cases {α : Type} [LinearOrderedField α] [FloorRing α] (x : α) :
    halfEven x = Int.floor x ∨ halfEven x = Int.floor x + 1 := by
  unfold halfEven
  split_ifs <;> simp

theorem pyRound2_bounds {α : Type} [LinearOrderedField α] [FloorRing α]
    (x : α) (h0 : 0 ≤ x) (h10 : x ≤ 10) : 0 ≤ pyRound2 x ∧ pyRound2 x ≤ 10 := by
  have hf0 : (0 : ℤ) ≤ Int.floor (x * 100) := by
    rw [Int.le_floor]
    push_cast
    nlinarith
  have hup : Int.floor (x * 100) ≤ 1000 := by
    have : (Int.floor (x * 100) : α) ≤ x * 100 := Int.floor_le _
    have hx : x * 100 ≤ 1000 := by nlinarith
    exact_mod_cast Int.cast_le.mp (by push_cast; linarith : ((Int.floor (x * 100) : ℤ) : α) ≤ ((1000 : ℤ) : α))
  rcases halfEven_cases (x * 100) with h | h
  · constructor
    · unfold pyRound2
      rw [h]
      positivity
    · unfold pyRound2
      rw [h]
      rw [div_le_iff (by norm_num : (0:α) < 100)]
      calc ((Int.floor (x * 100) : ℤ) : α) ≤ x * 100 := Int.floor_le _
        _ ≤ 10 * 100 := by nlinarith
  · have hstrict : Int.floor (x * 100) = 1000 → halfEven (x * 100) = 1000 := by
      intro heq
      have hxeq : x * 100 = 1000 := by
        have h1 : (1000 : α) ≤ x * 100 := by
          have := Int.floor_le (x * 100)
          rw [heq] at this
          push_cast at this
          linarith
        nlinarith
      unfold halfEven
      rw [heq]
      have hc : x * 100 - ((1000 : ℤ) : α) < 1/2 := by push_cast; rw [hxeq]; norm_num
      rw [if_pos hc]
    constructor
    · unfold pyRound2
      rw [h]
      have : (0 : α) ≤ ((Int.floor (x * 100) + 1 : ℤ) : α) := by
        push_cast
        have : (0 : α) ≤ (Int.floor (x * 100) : α) := by exact_mod_cast hf0
        linarith
      positivity
    · by_cases hcap : Int.floor (x * 100) = 1000
      · unfold pyRound2
        rw [hstrict hcap]
        norm_num
      · have hle : Int.floor (x * 100) + 1 ≤ 1000 := by omega
        unfold pyRound2
        rw [h]
        rw [div_le_iff (by norm_num : (0:α) < 100)]
        have : ((Int.floor (x * 100) + 1 : ℤ) : α) ≤ ((1000 : ℤ) : α) := by exact_mod_cast hle
        push_cast at this ⊢
        linarith

/-! ## Edit distance (`_edit_distance`): the source's row-based dynamic program -/

/-- One inner iteration of the `_edit_distance` dynamic program: walk the
remaining characters of `s2` together with the previous row, carrying the last
value of the current row. -/
def levRowAux (c1 : Char) : List Char → List Nat → Nat → List Nat
  | c2 :: cs, p0 :: p1 :: ps, d =>
      let v := min (p1 + 1) (min (d + 1) (p0 + (if c1 = c2 then 0 else 1)))
      v :: levRowAux c1 cs (p1 :: ps) v
  | _, _, _ => []

/-- The outer loop of `_edit_distance`: fold the rows over the characters of
`s1`, tracking the row index. -/
def levRows (s2 : List Char) : List Char → List Nat → Nat → List Nat
  | [], prev, _ => prev
  | c :: cs, prev, i => levRows s2 cs ((i + 1) :: levRowAux c s2 prev (i + 1)) (i + 1)

/-- The core of `_edit_distance` after the argument swap: handle the empty
second string, otherwise run the dynamic program and read the last entry. -/
def edCore (s1 s2 : List Char) : Nat :=
  if s2.length = 0 then s1.length
  else (levRows s2 s1 (List.range (s2.length + 1)) 0).getLastD 0

/-- `PronunciationAnalyzer._edit_distance`: swap so the first argument is the
longer string, then run the row dynamic program. -/
def editDistance (a b : String) : Nat :=
  if a.data.length < b.data.length then edCore b.data a.data else edCore a.data b.data

/-- Reference definition: the classic Levenshtein recurrence with unit costs. -/
def levRec : List Char → List Char → Nat
  | [], ys => ys.length
  | _ :: xs, [] => xs.length + 1
  | x :: xs, y :: ys =>
      min (levRec xs (y :: ys) + 1)
        (min (levRec (x :: xs) ys + 1) (levRec xs ys + (if x = y then 0 else 1)))
termination_by xs ys => xs.length + ys.length
decreasing_by
  all_goals simp [List.length_cons]
  all_goals omega

theorem levRec_nil_right (a : List Char) : levRec a [] = a.length := by
  cases a <;> simp [levRec]

/-- The distances from a fixed (reversed prefix) `A` to each extension of the
reversed prefix `B` by successive characters of `rest`. -/
def specRow (A : List Char) : List Char → List Char → List Nat
  | [], _ => []
  | c :: cs, B => levRec A (c :: B) :: specRow A cs (c :: B)

theorem levRowAux_spec (c : Char) (A : List Char) :
    ∀ (rest B : List Char),
      levRowAux c rest (levRec A B :: specRow A rest B) (levRec (c :: A) B) =
        specRow (c :: A) rest B := by
  intro rest
  induction rest with
  | nil => intro B; rfl
  | cons c2 cs ih =>
      intro B
      show levRowAux c (c2 :: cs)
          (levRec A B :: levRec A (c2 :: B) :: specRow A cs (c2 :: B))
          (levRec (c :: A) B) = _
      rw [levRowAux]
      have hv : min (levRec A (c2 :: B) + 1)
          (min (levRec (c :: A) B + 1) (levRec A B + (if c = c2 then 0 else 1))) =
          levRec (c :: A) (c2 :: B) := by
        rw [levRec]
      rw [specRow, ← hv]
      exact congrArg (_ :: ·) (hv ▸ ih (c2 :: B))

theorem levRows_spec (s2 : List Char) :
    ∀ (rest A : List Char),
      levRows s2 rest (levRec A [] :: specRow A s2 []) A.length =
        levRec (rest.reverse ++ A) [] :: specRow (rest.reverse ++ A) s2 [] := by
  intro rest
  induction rest with
  | nil => intro A; simp [levRows]
  | cons c cs ih =>
      intro A
      rw [levRows]
      have h1 : A.length + 1 = levRec (c :: A) [] := by
        rw [levRec_nil_right]; rfl
      rw [h1, levRowAux_spec c A s2 []]
      nth_rewrite 2 [levRec_nil_right]
      rw [ih (c :: A)]
      simp

theorem specRow_getLast (A : List Char) :
    ∀ (rest B : List Char),
      (specRow A rest B).getLastD (levRec A B) = levRec A (rest.reverse ++ B) := by
  intro rest
  induction rest with
  | nil => intro B; simp [specRow]
  | cons c2 cs ih =>
      intro B
      rw [specRow, List.getLastD_cons, ih (c2 :: B)]
      simp

theorem specRow_nil_left :
    ∀ (rest B : List Char), specRow [] rest B = List.range' (B.length + 1) rest.length := by
  intro rest
  induction rest with
  | nil => intro B; simp [specRow]
  | cons c cs ih =>
      intro B
      rw [specRow, ih (c :: B)]
      rw [show (c :: cs).length = cs.length + 1 from rfl, List.range'_succ]
      simp [levRec]

theorem edCore_eq_levRec (s1 s2 : List Char) :
    edCore s1 s2 = levRec s1.reverse s2.reverse := by
  unfold edCore
  by_cases h : s2.length = 0
  · rw [if_pos h]
    rw [List.length_eq_zero] at h
    subst h
    simp [levRec_nil_right]
  · rw [if_neg h]
    have hrange : List.range (s2.length + 1) = levRec [] [] :: specRow [] s2 [] := by
      rw [specRow_nil_left s2 [], show levRec [] [] = 0 by simp [levRec],
        List.range_eq_range', List.range'_succ]
      norm_num
    rw [hrange]
    have h0 : (0 : Nat) = ([] : List Char).length := rfl
    rw [h0, levRows_spec s2 s1 [], List.getLastD_cons, List.append_nil,
      specRow_getLast, List.append_nil]

theorem levRec_symm (a : List Char) : ∀ b, levRec a b = levRec b a := by
  induction a with
  | nil => intro b; cases b <;> simp [levRec]
  | cons x xs ih =>
      intro b
      induction b with
      | nil => simp [levRec]
      | cons y ys ihb =>
          rw [levRec]
          conv_rhs => rw [levRec]
          rw [ih (y :: ys), ihb, ih ys,
            show (if x = y then 0 else 1) = (if y = x then 0 else 1) by simp [eq_comm]]
          omega

theorem levRec_self (a : List Char) : levRec a a = 0 := by
  induction a with
  | nil => simp [levRec]
  | cons x xs ih =>
      rw [levRec]
      simp [ih]

theorem editDistance_eq_levRec (a b : String) :
    editDistance a b = levRec a.data.reverse b.data.reverse := by
  unfold editDistance
  by_cases h : a.data.length < b.data.length
  · rw [if_pos h, edCore_eq_levRec, levRec_symm]
  · rw [if_neg h, edCore_eq_levRec]

/-! ## Sequence similarity (`difflib.SequenceMatcher(None, a, b).ratio()`) -/

/-- Length of the common leading run of two character lists. -/
def runLen : List Char → List Char → Nat
  | x :: xs, y :: ys => if x = y then runLen xs ys + 1 else 0
  | _, _ => 0

theorem runLen_le_left : ∀ xs ys : List Char, runLen xs ys ≤ xs.length := by
  intro xs
  induction xs with
  | nil => intro ys; cases ys <;> simp [runLen]
  | cons x xs ih =>
      intro ys
      cases ys with
      | nil => simp [runLen]
      | cons y ys =>
          rw [runLen]
          split
          · have := ih ys; simp; omega
          · simp

theorem runLen_le_right : ∀ xs ys : List Char, runLen xs ys ≤ ys.length := by
  intro xs
  induction xs with
  | nil => intro ys; cases ys <;> simp [runLen]
  | cons x xs ih =>
      intro ys
      cases ys with
      | nil => simp [runLen]
      | cons y ys =>
          rw [runLen]
          split
          · have := ih ys; simp; omega
          · simp

/-- The longest matching block `(i, j, size)` between `a` and `b`, scanning
start positions `i` then `j` in increasing order and replacing the running best
only on a strictly longer match — difflib's earliest-longest tie-breaking
(without junk handling). -/
def bestMatch (a b : List Char) : Nat × Nat × Nat :=
  (List.range a.length).foldl (fun best i =>
    (List.range b.length).foldl (fun best j =>
      if best.2.2 < runLen (a.drop i) (b.drop j) then (i, j, runLen (a.drop i) (b.drop j))
      else best) best) (0, 0, 0)

/-- Invariant of the `bestMatch` fold: the running best is either the trivial
match or a genuine in-range match. -/
def BMInv (a b : List Char) (t : Nat × Nat × Nat) : Prop :=
  t.2.2 = 0 ∨
    (t.1 < a.length ∧ t.2.1 < b.length ∧ t.2.2 = runLen (a.drop t.1) (b.drop t.2.1))

theorem bestMatch_inv (a b : List Char) : BMInv a b (bestMatch a b) := by
  unfold bestMatch
  apply List.foldlRecOn
  · exact Or.inl rfl
  · intro t ht i hi
    apply List.foldlRecOn
    · exact ht
    · intro t' ht' j hj
      split
      · exact Or.inr ⟨List.mem_range.mp hi, List.mem_range.mp hj, rfl⟩
      · exact ht'

/-- Total size of all matching blocks found by the recursive
Ratcliff/Obershelp decomposition, as summed by
`SequenceMatcher.get_matching_blocks` / `ratio`. -/
def matchTotal (a b : List Char) : Nat :=
  if (bestMatch a b).2.2 = 0 then 0
  else
    matchTotal (a.take (bestMatch a b).1) (b.take (bestMatch a b).2.1) +
      (bestMatch a b).2.2 +
      matchTotal (a.drop ((bestMatch a b).1 + (bestMatch a b).2.2))
        (b.drop ((bestMatch a b).2.1 + (bestMatch a b).2.2))
termination_by a.length + b.length
decreasing_by
  · rcases bestMatch_inv a b with h | ⟨h1, h2, h3⟩
    · omega
    · simp [List.length_take]
      omega
  · rcases bestMatch_inv a b with h | ⟨h1, h2, h3⟩
    · omega
    · simp [List.length_drop]
      omega

theorem matchTotal_le_min (a b : List Char) :
    matchTotal a b ≤ min a.length b.length := by
  induction a, b using matchTotal.induct with
  | case1 a b h =>
      rw [matchTotal, if_pos h]
      omega
  | case2 a b h ih1 ih2 =>
      rw [matchTotal, if_neg h]
      rcases bestMatch_inv a b with h0 | ⟨h1, h2, h3⟩
      · omega
      · have hk1 : (bestMatch a b).2.2 ≤ a.length - (bestMatch a b).1 := by
          rw [h3]
          have := runLen_le_left (a.drop (bestMatch a b).1) (b.drop (bestMatch a b).2.1)
          simpa using this
        have hk2 : (bestMatch a b).2.2 ≤ b.length - (bestMatch a b).2.1 := by
          rw [h3]
          have := runLen_le_right (a.drop (bestMatch a b).1) (b.drop (bestMatch a b).2.1)
          simpa using this
        simp only [List.length_take, List.length_drop] at ih1 ih2
        omega

/-- `difflib.SequenceMatcher(None, a, b).ratio()`:
`2 * total_matched / (len(a) + len(b))`, or `1.0` on two empty strings. -/
def seqRatio (a b : String) : ℚ :=
  if a.data.length + b.data.length = 0 then 1
  else 2 * (matchTotal a.data b.data : ℚ) / ((a.data.length : ℚ) + (b.data.length : ℚ))

theorem seqRatio_nonneg (a b : String) : 0 ≤ seqRatio a b := by
  unfold seqRatio
  split
  · norm_num
  · positivity

theorem seqRatio_le_one (a b : String) : seqRatio a b ≤ 1 := by
  unfold seqRatio
  split
  · norm_num
  · rename_i h
    have hpos : (0 : ℚ) < (a.data.length : ℚ) + (b.data.length : ℚ) := by
      have : 0 < a.data.length + b.data.length := Nat.pos_of_ne_zero h
      exact_mod_cast this
    rw [div_le_one hpos]
    have := matchTotal_le_min a.data b.data
    have h2 : 2 * (matchTotal a.data b.data) ≤ a.data.length + b.data.length := by omega
    exact_mod_cast h2

/-! ## Pronunciation analyzer data model -/

/-- One entry of `alignment_info['word_matches']`. -/
structure WordMatch where
  original : String
  transcribed : String
  similarity : ℚ
  matched : Bool
deriving DecidableEq

/-- One entry of `alignment_info['phoneme_errors']`. -/
structure PhonemeError where
  position : Nat
  expected : Option Char
  actual : Option Char
  kind : String
deriving DecidableEq

/-- One entry of `alignment_info['details']`. -/
structure AlignDetail where
  position : Nat
  original_word : String
  transcribed_word : String
  errors : List PhonemeError
deriving DecidableEq

/-- The alignment result produced by `phoneme_align`. -/
structure AlignmentInfo where
  word_matches : List WordMatch
  phoneme_errors : List PhonemeError
  accuracy_score : ℚ
  details : List AlignDetail
deriving DecidableEq

/-- `PronunciationAnalyzer._preprocess_word`:
`re.sub(r'[^\w\s]', '', word.lower())`. -/
def preprocessWord (w : String) : String :=
  String.mk ((pyLower w).data.filter (fun c => c.isAlphanum || c == '_' || pySpace c))

/-- `PronunciationAnalyzer._word_similarity`. -/
def wordSimilarity (word1 word2 : String) : ℚ :=
  if word1 = "" ∧ word2 = "" then 1
  else if word1 = "" ∨ word2 = "" then 0
  else
    if max word1.data.length word2.data.length = 0 then 1
    else 1 - (editDistance word1 word2 : ℚ) / (max word1.data.length word2.data.length : ℚ)

/-- `PronunciationAnalyzer._detect_phoneme_errors`: character-position diff of
the two (already preprocessed) words — substitutions on the common prefix,
then one deletion per extra reference character or one insertion per extra
transcript character. -/
def detectPhonemeErrors (originalWord transcribedWord : String) : List PhonemeError :=
  let o := originalWord.data
  let t := transcribedWord.data
  let subs := (o.zip t).enum.filterMap (fun p =>
    if p.2.1 ≠ p.2.2 then some ⟨p.1, some p.2.1, some p.2.2, "substitution"⟩ else none)
  let tail :=
    if t.length < o.length then
      (o.drop t.length).enum.map
        (fun p => (⟨t.length + p.1, some p.2, none, "deletion"⟩ : PhonemeError))
    else if o.length < t.length then
      (t.drop o.length).enum.map
        (fun p => (⟨o.length + p.1, none, some p.2, "insertion"⟩ : PhonemeError))
    else []
  subs ++ tail

/-- The position-by-position loop of `phoneme_align`, acting on the two token
lists (transcribed first, mirroring the source's argument order). -/
def phonemeAlignCore (transcribedWords originalWords : List String) : AlignmentInfo :=
  let pairs := (originalWords.zip transcribedWords).enum
  let wms := pairs.map (fun p =>
    let s := wordSimilarity (preprocessWord p.2.1) (preprocessWord p.2.2)
    ({ original := p.2.1, transcribed := p.2.2, similarity := s,
       matched := if s > 0.7 then true else false } : WordMatch))
  let errs := pairs.flatMap (fun p =>
    let s := wordSimilarity (preprocessWord p.2.1) (preprocessWord p.2.2)
    if s ≤ 0.7 then detectPhonemeErrors (preprocessWord p.2.1) (preprocessWord p.2.2)
    else [])
  let dets := pairs.filterMap (fun p =>
    let s := wordSimilarity (preprocessWord p.2.1) (preprocessWord p.2.2)
    if s ≤ 0.7 then
      some ({ position := p.1, original_word := p.2.1, transcribed_word := p.2.2,
              errors := detectPhonemeErrors (preprocessWord p.2.1) (preprocessWord p.2.2) }
            : AlignDetail)
    else none)
  { word_matches := wms
    phoneme_errors := errs
    accuracy_score :=
      if originalWords = [] then 0
      else ((wms.countP (fun m => m.matched) : ℚ) / (originalWords.length : ℚ))
    details := dets }

/-- `PronunciationAnalyzer.phoneme_align`: tokenize both texts with
`.lower().split()` and run the alignment loop. -/
def phonemeAlign (transcription originalText : String) : AlignmentInfo :=
  phonemeAlignCore (pySplit (pyLower transcription)) (pySplit (pyLower originalText))

/-- `PronunciationAnalyzer._calculate_clarity_score`: word-set overlap with the
reference blended with positional matches, scaled to 0–10 and capped. -/
def clarityScorePA (transcription originalText : String) : ℚ :=
  let transcribedSet := (pySplit (pyLower transcription)).dedup
  let originalSet := (pySplit (pyLower originalText)).dedup
  if originalSet = [] then 0
  else
    let inter := (transcribedSet.filter (fun w => originalSet.contains w)).length
    let uni := (transcribedSet ++ originalSet.filter (fun w => !transcribedSet.contains w)).length
    if uni = 0 then 0
    else
      let transcribedList := pySplit (pyLower transcription)
      let originalList := pySplit (pyLower originalText)
      let posMatches := (transcribedList.zip originalList).countP (fun p => p.1 == p.2)
      let posScore : ℚ :=
        if originalList ≠ [] then (posMatches : ℚ) / (originalList.length : ℚ) else 0
      min 10 (((inter : ℚ) / (originalSet.length : ℚ) * 0.6 + posScore * 0.4) * 10)

/-- The nine filler words of `PronunciationAnalyzer._calculate_fluency_score`. -/
def fillersPA : List String :=
  ["um", "uh", "er", "like", "so", "well", "you know", "actually", "basically"]

/-- `PronunciationAnalyzer._calculate_fluency_score`: penalties for repeated
words (via the set of distinct words) and for fillers, subtracted from 10. -/
def fluencyScorePA (transcription : String) : ℚ :=
  let words := pySplit transcription
  if words = [] then 0
  else
    let repetitionRatio : ℚ := 1 - (words.dedup.length : ℚ) / (words.length : ℚ)
    let fillerCount := words.countP (fun w => fillersPA.contains (pyLower w))
    let fillerRatio : ℚ := (fillerCount : ℚ) / (words.length : ℚ)
    max 0 (10 - min 3 (repetitionRatio * 10) - min 2 (fillerRatio * 8))

/-- The comprehensive pronunciation score of
`PronunciationAnalyzer.pronunciation_scoring` (alignment supplied by the
caller, as on the `generate_pronunciation_report` path). -/
structure PronScore where
  overall : ℚ
  clarity : ℚ
  fluency : ℚ
  accuracy : ℚ
  alignment_details : AlignmentInfo

/-- `PronunciationAnalyzer.pronunciation_scoring`. -/
def pronunciationScoring (transcription originalText : String) (ai : AlignmentInfo) :
    PronScore :=
  let clarityScore := clarityScorePA transcription originalText
  let fluencyScore := fluencyScorePA transcription
  let accuracyScore := ai.accuracy_score * 10
  { overall := pyRound2 (clarityScore * 0.4 + fluencyScore * 0.3 + accuracyScore * 0.3)
    clarity := pyRound2 clarityScore
    fluency := pyRound2 fluencyScore
    accuracy := pyRound2 accuracyScore
    alignment_details := ai }

/-- `PronunciationAnalyzer._generate_recommendations`. -/
def generateRecommendations (s : PronScore) (ai : AlignmentInfo) : List String :=
  let rs :=
    (if s.clarity < 6 then ["Focus on clearer pronunciation of individual words."] else []) ++
    (if s.fluency < 6 then ["Work on reducing fillers and speech hesitations."] else []) ++
    (if s.accuracy < 6 then ["Practice matching the original text more closely."] else []) ++
    (if ai.phoneme_errors ≠ [] then
      ["Address " ++ toString ai.phoneme_errors.length ++ " phoneme-level errors detected."]
     else [])
  if rs = [] then ["Pronunciation looks good! Keep practicing to maintain your skills."]
  else rs

/-- The report of `PronunciationAnalyzer.generate_pronunciation_report`
(summary fields flattened). -/
structure PronReport where
  overall_score : ℚ
  clarity_score : ℚ
  fluency_score : ℚ
  accuracy_score : ℚ
  alignment_details : AlignmentInfo
  recommendations : List String

/-- `PronunciationAnalyzer.generate_pronunciation_report`. -/
def generatePronunciationReport (transcription originalText : String) : PronReport :=
  let ai := phonemeAlign transcription originalText
  let scoring := pronunciationScoring transcription originalText ai
  { overall_score := scoring.overall
    clarity_score := scoring.clarity
    fluency_score := scoring.fluency
    accuracy_score := scoring.accuracy
    alignment_details := ai
    recommendations := generateRecommendations scoring ai }

/-! ## Speech analyzer (`SpeechAnalyzer`) -/

/-- Python truthiness dispatch on the optional `original_prompt` argument:
`if original_prompt:` takes the reference branch exactly when the argument is
neither `None` nor the empty string. -/
def refDispatch {γ : Type} (op : Option String) (withRef : String → γ) (fallback : γ) : γ :=
  match op with
  | some p => if p = "" then fallback else withRef p
  | none => fallback

theorem refDispatch_empty {γ : Type} (w : String → γ) (f : γ) :
    refDispatch (some "") w f = f := by
  simp [refDispatch]

theorem refDispatch_none {γ : Type} (w : String → γ) (f : γ) :
    refDispatch none w f = f := rfl

/-- `SequenceMatcher(None, original_prompt.lower(), text.lower()).ratio()`,
as computed identically in `_estimate_pronunciation`, `_analyze_articulation`,
`_analyze_pace` and `_analyze_clarity`. -/
def simToRef (text originalPrompt : String) : ℚ :=
  seqRatio (pyLower originalPrompt) (pyLower text)

/-- `attempt_ratio = min(1.0, transcription_word_count / original_word_count)`
(or `1.0` for a reference with no words), as computed identically in the four
reference-based scorers. -/
def attemptRatio (text originalPrompt : String) : ℚ :=
  if (pySplit originalPrompt).length > 0 then
    min 1 (((pySplit text).length : ℚ) / ((pySplit originalPrompt).length : ℚ))
  else 1

theorem attemptRatio_nonneg (t p : String) : 0 ≤ attemptRatio t p := by
  unfold attemptRatio
  split
  · positivity
  · norm_num

theorem attemptRatio_le_one (t p : String) : attemptRatio t p ≤ 1 := by
  unfold attemptRatio
  split
  · exact min_le_left _ _
  · norm_num

/-- The thirteen filler words of `SpeechAnalyzer._analyze_fluency`. -/
def fillerWords : List String :=
  ["um", "uh", "er", "like", "so", "well", "you know", "actually", "basically",
   "literally", "right", "okay", "kind of"]

/-- Count of immediately repeated adjacent words. -/
def repeatedWordCount (words : List String) : Nat :=
  (words.zip words.tail).countP (fun p => p.1 == p.2)

/-- `SpeechAnalyzer._analyze_fluency`: penalties of 20× the repetition ratio
and 15× the filler ratio subtracted from 10, clamped at zero, scaled by 0.7
for speeches of fewer than five words, rounded to two decimals. -/
def fluencyScoreAS (text : String) : ℚ :=
  let words := pySplit (pyLower text)
  if words.length = 0 then 0
  else
    let repetitionRatio : ℚ :=
      if words.length > 0 then (repeatedWordCount words : ℚ) / (words.length : ℚ) else 0
    let fillerRatio : ℚ :=
      if words.length > 0 then
        ((words.countP (fun w => fillerWords.contains w)) : ℚ) / (words.length : ℚ)
      else 0
    let fluencyScore := max 0 (10 - repetitionRatio * 20 - fillerRatio * 15)
    pyRound2 (if words.length < 5 then fluencyScore * 0.7 else fluencyScore)

/-- The six emotion keyword lists of `SpeechAnalyzer._analyze_emotion`, in the
dictionary's insertion order. -/
def emotionKeywords : List (String × List String) :=
  [("joy",
    ["happy", "excited", "wonderful", "amazing", "fantastic", "great",
     "love", "pleased", "delighted", "thrilled", "glad", "cheerful",
     "joy", "celebrate", "success", "perfect", "awesome", "brilliant"]),
   ("sadness",
    ["sad", "unhappy", "depressed", "terrible", "awful", "horrible",
     "disappointed", "frustrated", "regret", "sorry", "miserable",
     "heartbroken", "lonely", "gloomy", "pessimistic", "tragic"]),
   ("anger",
    ["angry", "mad", "furious", "annoyed", "irritated", "frustrated",
     "hate", "disgusted", "rage", "hostile", "aggressive", "offended",
     "resentment", "bitter", "infuriated", "livid", "enraged"]),
   ("fear",
    ["scared", "afraid", "nervous", "worried", "anxious", "frightened",
     "terrified", "panicked", "concerned", "apprehensive", "timid",
     "phobic", "intimidated", "uneasy", "disturbed", "alarmed"]),
   ("surprise",
    ["surprised", "amazed", "shocked", "stunned", "astonished",
     "unbelievable", "incredible", "unexpected", "remarkable", "wow",
     "astounding", "startling", "unanticipated", "flabbergasted"]),
   ("disgust",
    ["disgusted", "disgusting", "gross", "nauseous", "revolted", "sickened",
     "appalled", "repulsed", "horrified", "icky", "yucky", "filthy",
     "contaminated", "repugnant", "loathsome", "abhorrent"])]

/-- Positive sentiment indicators of the emotion fallback. -/
def positiveIndicators : List String :=
  ["good", "nice", "excellent", "fine", "okay", "alright", "super",
   "cool", "awesome", "brilliant", "outstanding", "marvelous"]

/-- Negative sentiment indicators of the emotion fallback. -/
def negativeIndicators : List String :=
  ["bad", "terrible", "awful", "poor", "wrong", "incorrect", "badly",
   "horrible", "dreadful", "atrocious", "inferior", "unsatisfactory"]

/-- Python's `max(mapping, key=mapping.get)` on an association list in
insertion order: scan left to right, replacing the running best only on a
strictly greater count, so the first maximal entry wins. -/
def pyMaxPair : List (String × Nat) → String × Nat
  | [] => ("neutral", 0)
  | p :: rest => rest.foldl (fun best q => if best.2 < q.2 then q else best) p

/-- `SpeechAnalyzer._analyze_emotion`. -/
def analyzeEmotion (text : String) : String :=
  if text = "" then "neutral"
  else
    let words := pySplit (pyLower text)
    let counts := emotionKeywords.map (fun p => (p.1, words.countP (fun w => p.2.contains w)))
    let best := pyMaxPair counts
    if best.2 = 0 then
      let posCount := words.countP (fun w => positiveIndicators.contains w)
      let negCount := words.countP (fun w => negativeIndicators.contains w)
      if posCount > negCount then "positive"
      else if negCount > posCount then "negative"
      else "neutral"
    else best.1

/-- Confidence indicator substrings of `SpeechAnalyzer._analyze_confidence`
(including the source's duplicated `indeed`). -/
def confidentExpressions : List String :=
  ["clearly", "obviously", "definitely", "certainly", "absolutely",
   "without doubt", "undoubtedly", "indeed", "surely", "indeed",
   "obvious", "certain", "absolut", "exact", "precise", "confident"]

/-- Uncertainty indicator substrings of `SpeechAnalyzer._analyze_confidence`
(including the source's duplicated `maybe`). -/
def uncertainExpressions : List String :=
  ["maybe", "perhaps", "possibly", "might", "could", "should",
   "i think", "i believe", "i guess", "sort of", "kind of",
   "maybe", "probabl", "seem", "appear", "tend to", "somewhat"]

/-- `SpeechAnalyzer._analyze_confidence`. The question ratio divides the
number of `?` characters by the number of `.`-separated segments, and is zero
whenever the text contains no period at all. -/
def confidenceScore (text : String) : ℚ :=
  let words := pySplit (pyLower text)
  if words = [] then 0
  else
    let positiveCount := words.countP (fun w => confidentExpressions.any (fun e => strIn e w))
    let negativeCount := words.countP (fun w => uncertainExpressions.any (fun e => strIn e w))
    let questionCount := text.data.count '?'
    let questionRatio : ℚ :=
      if text.data.contains '.' then
        (questionCount : ℚ) / ((text.data.count '.' + 1 : Nat) : ℚ)
      else 0
    let lengthFactor : ℚ := min 2 ((words.length : ℚ) / 20)
    let confidence :=
      3 + lengthFactor + (positiveCount : ℚ) * 1.0 - (negativeCount : ℚ) * 1.5 -
        questionRatio * 2
    pyRound2 (max 0 (min 10 confidence))

/-- Hesitation markers of the articulation fallback. -/
def unclearIndicators : List String := ["uh", "um", "ah", "er", "hm", "hmm"]

/-- Short words exempted from the articulation fallback's short-word penalty. -/
def shortWordAllowList : List String :=
  ["i", "a", "to", "of", "in", "on", "at", "or", "be", "an"]

/-- Reference branch of `SpeechAnalyzer._analyze_articulation`. -/
def articulationWithRef (text p : String) : ℚ :=
  let similarity := simToRef text p
  let ar := attemptRatio text p
  let score := (similarity * 0.8 + ar * 0.2) * 10
  pyRound2 (if ar > 0.5 ∧ similarity > 0.4 then max score 5 else score)

/-- Fallback branch of `SpeechAnalyzer._analyze_articulation`. -/
def articulationNoRef (text : String) : ℚ :=
  let words := pySplit text
  let unclearCount := words.countP (fun w => unclearIndicators.contains (pyLower w))
  let unclearRatio : ℚ := (unclearCount : ℚ) / (words.length : ℚ)
  let shortCount := words.countP
    (fun w => w.data.length ≤ 2 && !(shortWordAllowList.contains (pyLower w)))
  let shortRatio : ℚ := (shortCount : ℚ) / (words.length : ℚ)
  pyRound2 (max 0 (10 - unclearRatio * 30 - shortRatio * 5))

/-- `SpeechAnalyzer._analyze_articulation`. -/
def articulationScore (text : String) (op : Option String) : ℚ :=
  if pySplit text = [] then 0
  else refDispatch op (articulationWithRef text) (articulationNoRef text)

/-- Arithmetic mean (`numpy.mean`) of a list of rationals. -/
def meanQ (xs : List ℚ) : ℚ := xs.sum / (xs.length : ℚ)

/-- Reference branch of `SpeechAnalyzer._analyze_clarity`. -/
def clarityWithRef (text p : String) : ℚ :=
  let similarity := simToRef text p
  let ar := attemptRatio text p
  let score := (similarity * 0.7 + ar * 0.3) * 10
  pyRound2 (if ar > 0.5 ∧ similarity > 0.4 then max score 5 else score)

/-- Fallback branch of `SpeechAnalyzer._analyze_clarity`: score the average
sentence length against the 8–15 word ideal, then adjust for sentence count. -/
def clarityNoRef (text : String) : ℚ :=
  let sentences := sentenceSplit text
  let wordCounts := (sentences.map (fun s => (pySplit s).length)).filter (fun n => n ≠ 0)
  if wordCounts = [] then 0
  else
    let avgLength := meanQ (wordCounts.map (fun (n : Nat) => (n : ℚ)))
    let base :=
      if 8 ≤ avgLength ∧ avgLength ≤ 15 then (8 : ℚ)
      else if avgLength < 8 then max 0 (8 - (8 - avgLength) * 1.0)
      else max 0 (8 - (avgLength - 15) * 0.5)
    let adjusted :=
      if 2 ≤ sentences.length then min 10 (base + 1.5)
      else if sentences.length = 1 then max 0 (base - 1)
      else base
    pyRound2 adjusted

/-- `SpeechAnalyzer._analyze_clarity`. -/
def clarityScoreAS (text : String) (op : Option String) : ℚ :=
  if sentenceSplit text = [] then 0
  else refDispatch op (clarityWithRef text) (clarityNoRef text)

/-- Population standard deviation (`numpy.std`). -/
noncomputable def pyStd (xs : List ℚ) : ℝ :=
  Real.sqrt (((xs.map (fun x => ((x : ℝ) - ((meanQ xs : ℚ) : ℝ)) ^ 2)).sum) / (xs.length : ℝ))

/-- Reference branch of `SpeechAnalyzer._analyze_pace`. -/
def paceWithRef (text p : String) : ℚ :=
  let similarity := simToRef text p
  let ar := attemptRatio text p
  let score := (ar * 0.6 + similarity * 0.4) * 10
  pyRound2 (if ar > 0.3 then max score 4 else score)

/-- Fallback branch of `SpeechAnalyzer._analyze_pace`: pace consistency via the
standard deviation of per-sentence word counts. -/
noncomputable def paceNoRef (text : String) : ℝ :=
  let sentences := sentenceSplit text
  if sentences = [] then 0
  else
    let wordCounts := (sentences.map (fun s => (pySplit s).length)).filter (fun n => n ≠ 0)
    if wordCounts = [] then 0
    else
      let stdDev : ℝ :=
        if 1 < wordCounts.length then pyStd (wordCounts.map (fun (n : Nat) => (n : ℚ))) else 0
      pyRound2 (max 0 (7 - stdDev * 0.3))

/-- `SpeechAnalyzer._analyze_pace`. -/
noncomputable def paceScore (text : String) (op : Option String) : ℝ :=
  refDispatch op (fun p => ((paceWithRef text p : ℚ) : ℝ)) (paceNoRef text)

/-- Reference branch of `SpeechAnalyzer._estimate_pronunciation`: the
sequence-similarity and attempt-ratio blend with its 5.0 floor, capped at 10
and rounded. -/
def estimateWithRef (text p : String) : ℚ :=
  let similarity := simToRef text p
  let ar := attemptRatio text p
  let score := (similarity * 0.7 + ar * 0.3) * 10
  pyRound2 (min 10 (if ar > 0.5 ∧ similarity > 0.4 then max score 5 else score))

/-- Fallback branch of `SpeechAnalyzer._estimate_pronunciation`: coarse word
count buckets. -/
def estimateNoRef (text : String) : ℚ :=
  let n := (pySplit text).length
  if n < 3 then 2
  else if n < 5 then 4
  else if n < 10 then 6
  else min 9 (6 + ((n : ℚ) - 10) * 0.3)

/-- `SpeechAnalyzer._estimate_pronunciation`. -/
def estimatePronunciation (text : String) (op : Option String) : ℚ :=
  refDispatch op (estimateWithRef text) (estimateNoRef text)

/-- The pronunciation dimension of `SpeechAnalyzer.analyze_speech`: the
comprehensive report's overall score when a reference prompt is present,
otherwise the basic estimate. -/
def pronunciationDim (text : String) (op : Option String) : ℚ :=
  refDispatch op (fun p => (generatePronunciationReport text p).overall_score)
    (estimatePronunciation text op)

/-- The record returned by `SpeechAnalyzer.analyze_speech`. -/
structure SpeechReport where
  pronunciation : ℚ
  articulation : ℚ
  pace : ℝ
  clarity : ℚ
  emotion : String

/-- `SpeechAnalyzer.analyze_speech`. -/
noncomputable def analyzeSpeech (transcription : String) (op : Option String) :
    SpeechReport :=
  if transcription = "" then
    { pronunciation := 0, articulation := 0, pace := 0, clarity := 0, emotion := "neutral" }
  else
    { pronunciation := pronunciationDim transcription op
      articulation := articulationScore transcription op
      pace := paceScore transcription op
      clarity := clarityScoreAS transcription op
      emotion := analyzeEmotion transcription }

/-- A value that is an exact multiple of a hundredth is unchanged by
`pyRound2`. -/
theorem pyRound2_exact {x : ℚ} (k : ℤ) (h : x * 100 = (k : ℚ)) : pyRound2 x = x := by
  unfold pyRound2 halfEven
  rw [h, Int.floor_intCast]
  rw [if_pos (by simp : (k:ℚ) - (k:ℚ) < 1/2)]
  field_simp
  linarith [h]

/-! ## Guarded-division variants for the totality claim

Every division the scoring engine performs is routed through `divC`, which
fails on a zero denominator; the engine's own guards must therefore be shown
to make every `divC` succeed. -/

/-- Division that fails on a zero denominator. -/
def divC (a b : ℚ) : Option ℚ := if b = 0 then none else some (a / b)

theorem divC_isSome {a b : ℚ} (h : b ≠ 0) : divC a b = some (a / b) := by
  simp [divC, h]

/-- Real-valued division that fails on a zero denominator. -/
noncomputable def divCR (a b : ℝ) : Option ℝ := if b = 0 then none else some (a / b)

theorem divCR_isSome {a b : ℝ} (h : b ≠ 0) : divCR a b = some (a / b) := by
  simp [divCR, h]

/-- `_word_similarity` with checked division. -/
def wordSimilarityC (word1 word2 : String) : Option ℚ :=
  if word1 = "" ∧ word2 = "" then some 1
  else if word1 = "" ∨ word2 = "" then some 0
  else
    if max word1.data.length word2.data.length = 0 then some 1
    else do
      let q ← divC (editDistance word1 word2 : ℚ) (max word1.data.length word2.data.length : ℚ)
      some (1 - q)

theorem wordSimilarityC_eq (w1 w2 : String) :
    wordSimilarityC w1 w2 = some (wordSimilarity w1 w2) := by
  unfold wordSimilarityC wordSimilarity
  split_ifs with h1 h2 h3
  · rfl
  · rfl
  · rfl
  · rw [divC_isSome (by exact_mod_cast h3)]
    rfl

/-- `_calculate_clarity_score` with checked divisions. -/
def clarityScorePAC (transcription originalText : String) : Option ℚ :=
  let transcribedSet := (pySplit (pyLower transcription)).dedup
  let originalSet := (pySplit (pyLower originalText)).dedup
  if originalSet = [] then some 0
  else
    let inter := (transcribedSet.filter (fun w => originalSet.contains w)).length
    let uni := (transcribedSet ++ originalSet.filter (fun w => !transcribedSet.contains w)).length
    if uni = 0 then some 0
    else do
      let transcribedList := pySplit (pyLower transcription)
      let originalList := pySplit (pyLower originalText)
      let posMatches := (transcribedList.zip originalList).countP (fun p => p.1 == p.2)
      let posScore ←
        if h : originalList ≠ [] then divC (posMatches : ℚ) (originalList.length : ℚ)
        else some 0
      let overlap ← divC (inter : ℚ) (originalSet.length : ℚ)
      some (min 10 ((overlap * 0.6 + posScore * 0.4) * 10))

theorem clarityScorePAC_eq (t o : String) :
    clarityScorePAC t o = some (clarityScorePA t o) := by
  simp only [clarityScorePAC, clarityScorePA]
  split_ifs with h1 h2 h3
  · rfl
  · rfl
  · have hlen : ((pySplit (pyLower o)).dedup.length : ℚ) ≠ 0 := by
      have hpos : 0 < (pySplit (pyLower o)).dedup.length := List.length_pos.mpr h1
      exact_mod_cast Nat.pos_iff_ne_zero.mp hpos
    have h4 : ((pySplit (pyLower o)).length : ℚ) ≠ 0 := by
      have hpos : 0 < (pySplit (pyLower o)).length := List.length_pos.mpr h3
      exact_mod_cast Nat.pos_iff_ne_zero.mp hpos
    rw [divC_isSome h4, divC_isSome hlen]
    rfl
  · exact absurd (by rw [not_not.mp h3]; simp : (pySplit (pyLower o)).dedup = []) h1

/-- `_calculate_fluency_score` with checked divisions. -/
def fluencyScorePAC (transcription : String) : Option ℚ :=
  let words := pySplit transcription
  if words = [] then some 0
  else do
    let uniqueRatio ← divC (words.dedup.length : ℚ) (words.length : ℚ)
    let fillerCount := words.countP (fun w => fillersPA.contains (pyLower w))
    let fillerRatio ← divC (fillerCount : ℚ) (words.length : ℚ)
    some (max 0 (10 - min 3 ((1 - uniqueRatio) * 10) - min 2 (fillerRatio * 8)))

theorem fluencyScorePAC_eq (t : String) :
    fluencyScorePAC t = some (fluencyScorePA t) := by
  simp only [fluencyScorePAC, fluencyScorePA]
  split_ifs with h1
  · rfl
  · have h4 : ((pySplit t).length : ℚ) ≠ 0 := by
      have hpos : 0 < (pySplit t).length := List.length_pos.mpr h1
      exact_mod_cast Nat.pos_iff_ne_zero.mp hpos
    rw [divC_isSome h4, divC_isSome h4]
    rfl

/-- Option-monad `map`, used by the checked alignment. -/
def mapO {α β : Type} (f : α → Option β) : List α → Option (List β)
  | [] => some []
  | x :: xs => do
      let y ← f x
      let ys ← mapO f xs
      some (y :: ys)

theorem mapO_eq_some {α β : Type} (f : α → Option β) (g : α → β) :
    ∀ l : List α, (∀ x ∈ l, f x = some (g x)) → mapO f l = some (l.map g) := by
  intro l
  induction l with
  | nil => intro _; rfl
  | cons x xs ih =>
      intro h
      show (do
        let y ← f x
        let ys ← mapO f xs
        some (y :: ys)) = _
      rw [h x (by simp), ih (fun y hy => h y (by simp [hy]))]
      rfl

/-- Concatenation of a list of lists. -/
def flattenL {α : Type} : List (List α) → List α
  | [] => []
  | l :: ls => l ++ flattenL ls

theorem flattenL_map_eq_flatMap {α β : Type} (g : α → List β) :
    ∀ l : List α, flattenL (l.map g) = l.flatMap g := by
  intro l
  induction l with
  | nil => rfl
  | cons x xs ih => simp [flattenL, ih]

theorem filterMap_eq_flattenL {α β : Type} (f : α → Option β) :
    ∀ l : List α, l.filterMap f = flattenL (l.map (fun x => (f x).toList)) := by
  intro l
  induction l with
  | nil => rfl
  | cons x xs ih =>
      rw [List.filterMap_cons]
      cases hx : f x <;> simp [flattenL, hx, ih]

/-- `phoneme_align`'s loop with every division checked. -/
def phonemeAlignCoreC (transcribedWords originalWords : List String) :
    Option AlignmentInfo := do
  let pairs := (originalWords.zip transcribedWords).enum
  let wms ← mapO (fun p => do
    let s ← wordSimilarityC (preprocessWord p.2.1) (preprocessWord p.2.2)
    some ({ original := p.2.1, transcribed := p.2.2, similarity := s,
            matched := if s > 0.7 then true else false } : WordMatch)) pairs
  let errBlocks ← mapO (fun p => do
    let s ← wordSimilarityC (preprocessWord p.2.1) (preprocessWord p.2.2)
    some (if s ≤ 0.7 then
            detectPhonemeErrors (preprocessWord p.2.1) (preprocessWord p.2.2)
          else [])) pairs
  let detBlocks ← mapO (fun p => do
    let s ← wordSimilarityC (preprocessWord p.2.1) (preprocessWord p.2.2)
    some ((if s ≤ 0.7 then
            some ({ position := p.1, original_word := p.2.1, transcribed_word := p.2.2,
                    errors := detectPhonemeErrors (preprocessWord p.2.1) (preprocessWord p.2.2) }
                  : AlignDetail)
           else none).toList)) pairs
  let acc ←
    if originalWords = [] then some (0 : ℚ)
    else divC ((wms.countP (fun m => m.matched)) : ℚ) (originalWords.length : ℚ)
  some { word_matches := wms, phoneme_errors := flattenL errBlocks,
         accuracy_score := acc, details := flattenL detBlocks }

theorem someBind {α β : Type} (a : α) (f : α → Option β) : (some a >>= f) = f a := rfl

theorem phonemeAlignCoreC_eq (tl ol : List String) :
    phonemeAlignCoreC tl ol = some (phonemeAlignCore tl ol) := by
  simp only [phonemeAlignCoreC, phonemeAlignCore]
  rw [mapO_eq_some
        (fun p => do
          let s ← wordSimilarityC (preprocessWord p.2.1) (preprocessWord p.2.2)
          some ({ original := p.2.1, transcribed := p.2.2, similarity := s,
                  matched := if s > 0.7 then true else false } : WordMatch))
        (fun p => ({ original := p.2.1, transcribed := p.2.2,
                     similarity := wordSimilarity (preprocessWord p.2.1) (preprocessWord p.2.2),
                     matched := if wordSimilarity (preprocessWord p.2.1) (preprocessWord p.2.2) > 0.7
                                then true else false } : WordMatch))
        ((ol.zip tl).enum)
        (fun x _ => by simp only [wordSimilarityC_eq]; rfl), someBind]
  rw [mapO_eq_some
        (fun p => do
          let s ← wordSimilarityC (preprocessWord p.2.1) (preprocessWord p.2.2)
          some (if s ≤ 0.7 then
                  detectPhonemeErrors (preprocessWord p.2.1) (preprocessWord p.2.2)
                else []))
        (fun p => if wordSimilarity (preprocessWord p.2.1) (preprocessWord p.2.2) ≤ 0.7 then
                    detectPhonemeErrors (preprocessWord p.2.1) (preprocessWord p.2.2)
                  else [])
        ((ol.zip tl).enum)
        (fun x _ => by simp only [wordSimilarityC_eq]; rfl), someBind]
  rw [mapO_eq_some
        (fun p => do
          let s ← wordSimilarityC (preprocessWord p.2.1) (preprocessWord p.2.2)
          some ((if s ≤ 0.7 then
                   some ({ position := p.1, original_word := p.2.1, transcribed_word := p.2.2,
                           errors := detectPhonemeErrors (preprocessWord p.2.1)
                             (preprocessWord p.2.2) } : AlignDetail)
                 else none).toList))
        (fun p => (if wordSimilarity (preprocessWord p.2.1) (preprocessWord p.2.2) ≤ 0.7 then
                     some ({ position := p.1, original_word := p.2.1, transcribed_word := p.2.2,
                             errors := detectPhonemeErrors (preprocessWord p.2.1)
                               (preprocessWord p.2.2) } : AlignDetail)
                   else none).toList)
        ((ol.zip tl).enum)
        (fun x _ => by simp only [wordSimilarityC_eq]; rfl), someBind]
  by_cases h : ol = []
  · rw [if_pos h, someBind, if_pos h, flattenL_map_eq_flatMap, ← filterMap_eq_flattenL]
  · rw [if_neg h]
    have h4 : ((ol.length : ℚ)) ≠ 0 := by
      have hpos : 0 < ol.length := List.length_pos.mpr h
      exact_mod_cast Nat.pos_iff_ne_zero.mp hpos
    rw [divC_isSome h4, someBind, if_neg h, flattenL_map_eq_flatMap, ← filterMap_eq_flattenL]

/-- `phoneme_align` with every division checked. -/
def phonemeAlignC (transcription originalText : String) : Option AlignmentInfo :=
  phonemeAlignCoreC (pySplit (pyLower transcription)) (pySplit (pyLower originalText))

theorem phonemeAlignC_eq (t o : String) : phonemeAlignC t o = some (phonemeAlign t o) :=
  phonemeAlignCoreC_eq _ _

/-- `pronunciation_scoring` with every division checked. -/
def pronunciationScoringC (transcription originalText : String) (ai : AlignmentInfo) :
    Option PronScore := do
  let clarityScore ← clarityScorePAC transcription originalText
  let fluencyScore ← fluencyScorePAC transcription
  let accuracyScore := ai.accuracy_score * 10
  some { overall := pyRound2 (clarityScore * 0.4 + fluencyScore * 0.3 + accuracyScore * 0.3)
         clarity := pyRound2 clarityScore
         fluency := pyRound2 fluencyScore
         accuracy := pyRound2 accuracyScore
         alignment_details := ai }

theorem pronunciationScoringC_eq (t o : String) (ai : AlignmentInfo) :
    pronunciationScoringC t o ai = some (pronunciationScoring t o ai) := by
  unfold pronunciationScoringC pronunciationScoring
  rw [clarityScorePAC_eq, fluencyScorePAC_eq]
  rfl

/-- `generate_pronunciation_report` with every division checked. -/
def generatePronunciationReportC (transcription originalText : String) :
    Option PronReport := do
  let ai ← phonemeAlignC transcription originalText
  let scoring ← pronunciationScoringC transcription originalText ai
  some { overall_score := scoring.overall
         clarity_score := scoring.clarity
         fluency_score := scoring.fluency
         accuracy_score := scoring.accuracy
         alignment_details := ai
         recommendations := generateRecommendations scoring ai }

theorem generatePronunciationReportC_eq (t o : String) :
    generatePronunciationReportC t o = some (generatePronunciationReport t o) := by
  unfold generatePronunciationReportC generatePronunciationReport
  rw [phonemeAlignC_eq, someBind, pronunciationScoringC_eq, someBind]

/-- `SequenceMatcher.ratio` with its division checked. -/
def seqRatioC (a b : String) : Option ℚ :=
  if a.data.length + b.data.length = 0 then some 1
  else divC (2 * (matchTotal a.data b.data : ℚ)) ((a.data.length : ℚ) + (b.data.length : ℚ))

theorem seqRatioC_eq (a b : String) : seqRatioC a b = some (seqRatio a b) := by
  unfold seqRatioC seqRatio
  split_ifs with h
  · rfl
  · have hq : ((a.data.length : ℚ) + (b.data.length : ℚ)) ≠ 0 := by
      have hpos : 0 < a.data.length + b.data.length := Nat.pos_of_ne_zero h
      have : (0 : ℚ) < (a.data.length : ℚ) + (b.data.length : ℚ) := by exact_mod_cast hpos
      linarith
    rw [divC_isSome hq]

/-- `simToRef` with its division checked. -/
def simToRefC (text originalPrompt : String) : Option ℚ :=
  seqRatioC (pyLower originalPrompt) (pyLower text)

theorem simToRefC_eq (t p : String) : simToRefC t p = some (simToRef t p) :=
  seqRatioC_eq _ _

/-- `attempt_ratio` with its division checked. -/
def attemptRatioC (text originalPrompt : String) : Option ℚ :=
  if (pySplit originalPrompt).length > 0 then do
    let q ← divC ((pySplit text).length : ℚ) ((pySplit originalPrompt).length : ℚ)
    some (min 1 q)
  else some 1

theorem attemptRatioC_eq (t p : String) : attemptRatioC t p = some (attemptRatio t p) := by
  unfold attemptRatioC attemptRatio
  split_ifs with h
  · have hq : ((pySplit p).length : ℚ) ≠ 0 := by
      have : (0 : ℚ) < ((pySplit p).length : ℚ) := by exact_mod_cast h
      linarith
    rw [divC_isSome hq, someBind]
  · rfl

/-- The reference branch of `_estimate_pronunciation` with checked divisions. -/
def estimateWithRefC (text p : String) : Option ℚ := do
  let similarity ← simToRefC text p
  let ar ← attemptRatioC text p
  let score := (similarity * 0.7 + ar * 0.3) * 10
  some (pyRound2 (min 10 (if ar > 0.5 ∧ similarity > 0.4 then max score 5 else score)))

theorem estimateWithRefC_eq (t p : String) :
    estimateWithRefC t p = some (estimateWithRef t p) := by
  unfold estimateWithRefC estimateWithRef
  rw [simToRefC_eq, someBind, attemptRatioC_eq, someBind]

/-- The reference branch of `_analyze_articulation` with checked divisions. -/
def articulationWithRefC (text p : String) : Option ℚ := do
  let similarity ← simToRefC text p
  let ar ← attemptRatioC text p
  let score := (similarity * 0.8 + ar * 0.2) * 10
  some (pyRound2 (if ar > 0.5 ∧ similarity > 0.4 then max score 5 else score))

theorem articulationWithRefC_eq (t p : String) :
    articulationWithRefC t p = some (articulationWithRef t p) := by
  unfold articulationWithRefC articulationWithRef
  rw [simToRefC_eq, someBind, attemptRatioC_eq, someBind]

/-- The fallback branch of `_analyze_articulation` with checked divisions; the
caller guarantees a non-empty word list. -/
def articulationNoRefC (text : String) : Option ℚ := do
  let words := pySplit text
  let unclearCount := words.countP (fun w => unclearIndicators.contains (pyLower w))
  let unclearRatio ← divC (unclearCount : ℚ) (words.length : ℚ)
  let shortCount := words.countP
    (fun w => w.data.length ≤ 2 && !(shortWordAllowList.contains (pyLower w)))
  let shortRatio ← divC (shortCount : ℚ) (words.length : ℚ)
  some (pyRound2 (max 0 (10 - unclearRatio * 30 - shortRatio * 5)))

theorem articulationNoRefC_eq (t : String) (h : pySplit t ≠ []) :
    articulationNoRefC t = some (articulationNoRef t) := by
  have hq : ((pySplit t).length : ℚ) ≠ 0 := by
    have hpos : 0 < (pySplit t).length := List.length_pos.mpr h
    exact_mod_cast Nat.pos_iff_ne_zero.mp hpos
  simp only [articulationNoRefC, articulationNoRef, divC_isSome hq, someBind]

/-- `_analyze_articulation` with checked divisions. -/
def articulationScoreC (text : String) (op : Option String) : Option ℚ :=
  if pySplit text = [] then some 0
  else refDispatch op (articulationWithRefC text) (articulationNoRefC text)

theorem articulationScoreC_eq (t : String) (op : Option String) :
    articulationScoreC t op = some (articulationScore t op) := by
  unfold articulationScoreC articulationScore
  split_ifs with h
  · rfl
  · cases op with
    | none => exact articulationNoRefC_eq t h
    | some p =>
        by_cases hp : p = ""
        · simp only [refDispatch, if_pos hp]
          exact articulationNoRefC_eq t h
        · simp only [refDispatch, if_neg hp]
          exact articulationWithRefC_eq t p

/-- The reference branch of `_analyze_clarity` with checked divisions. -/
def clarityWithRefC (text p : String) : Option ℚ := do
  let similarity ← simToRefC text p
  let ar ← attemptRatioC text p
  let score := (similarity * 0.7 + ar * 0.3) * 10
  some (pyRound2 (if ar > 0.5 ∧ similarity > 0.4 then max score 5 else score))

theorem clarityWithRefC_eq (t p : String) :
    clarityWithRefC t p = some (clarityWithRef t p) := by
  unfold clarityWithRefC clarityWithRef
  rw [simToRefC_eq, someBind, attemptRatioC_eq, someBind]

/-- The fallback branch of `_analyze_clarity` with checked divisions. -/
def clarityNoRefC (text : String) : Option ℚ :=
  let sentences := sentenceSplit text
  let wordCounts := (sentences.map (fun s => (pySplit s).length)).filter (fun n => n ≠ 0)
  if wordCounts = [] then some 0
  else do
    let avgLength ← divC (wordCounts.map (fun (n : Nat) => (n : ℚ))).sum
      ((wordCounts.map (fun (n : Nat) => (n : ℚ))).length : ℚ)
    let base :=
      if 8 ≤ avgLength ∧ avgLength ≤ 15 then (8 : ℚ)
      else if avgLength < 8 then max 0 (8 - (8 - avgLength) * 1.0)
      else max 0 (8 - (avgLength - 15) * 0.5)
    let adjusted :=
      if 2 ≤ sentences.length then min 10 (base + 1.5)
      else if sentences.length = 1 then max 0 (base - 1)
      else base
    some (pyRound2 adjusted)

theorem clarityNoRefC_eq (t : String) : clarityNoRefC t = some (clarityNoRef t) := by
  by_cases h : ((sentenceSplit t).map (fun s => (pySplit s).length)).filter (fun n => n ≠ 0) = []
  · simp only [clarityNoRefC, clarityNoRef, if_pos h]
  · have hq : (((((sentenceSplit t).map (fun s => (pySplit s).length)).filter
        (fun n => n ≠ 0)).map (fun (n : Nat) => (n : ℚ))).length : ℚ) ≠ 0 := by
      have hne : (((sentenceSplit t).map (fun s => (pySplit s).length)).filter
          (fun n => n ≠ 0)).map (fun (n : Nat) => (n : ℚ)) ≠ [] := by
        simpa using h
      have hpos := List.length_pos.mpr hne
      exact_mod_cast Nat.pos_iff_ne_zero.mp hpos
    simp only [clarityNoRefC, clarityNoRef, if_neg h, divC_isSome hq, someBind, meanQ]

/-- `_analyze_clarity` with checked divisions. -/
def clarityScoreASC (text : String) (op : Option String) : Option ℚ :=
  if sentenceSplit text = [] then some 0
  else refDispatch op (clarityWithRefC text) (clarityNoRefC text)

theorem clarityScoreASC_eq (t : String) (op : Option String) :
    clarityScoreASC t op = some (clarityScoreAS t op) := by
  unfold clarityScoreASC clarityScoreAS
  split_ifs with h
  · rfl
  · cases op with
    | none => exact clarityNoRefC_eq t
    | some p =>
        by_cases hp : p = ""
        · simp only [refDispatch, if_pos hp]
          exact clarityNoRefC_eq t
        · simp only [refDispatch, if_neg hp]
          exact clarityWithRefC_eq t p

/-- `numpy.std` with checked divisions. -/
noncomputable def pyStdC (xs : List ℚ) : Option ℝ := do
  let m ← divC xs.sum (xs.length : ℚ)
  let v ← divCR ((xs.map (fun x => ((x : ℝ) - ((m : ℚ) : ℝ)) ^ 2)).sum) (xs.length : ℝ)
  some (Real.sqrt v)

theorem pyStdC_eq (xs : List ℚ) (h : xs ≠ []) : pyStdC xs = some (pyStd xs) := by
  have hpos : 0 < xs.length := List.length_pos.mpr h
  have hq : ((xs.length : ℚ)) ≠ 0 := by exact_mod_cast Nat.pos_iff_ne_zero.mp hpos
  have hr : ((xs.length : ℝ)) ≠ 0 := by exact_mod_cast Nat.pos_iff_ne_zero.mp hpos
  unfold pyStdC pyStd
  rw [divC_isSome hq, someBind, divCR_isSome hr, someBind, meanQ]

/-- The reference branch of `_analyze_pace` with checked divisions. -/
def paceWithRefC (text p : String) : Option ℚ := do
  let similarity ← simToRefC text p
  let ar ← attemptRatioC text p
  let score := (ar * 0.6 + similarity * 0.4) * 10
  some (pyRound2 (if ar > 0.3 then max score 4 else score))

theorem paceWithRefC_eq (t p : String) : paceWithRefC t p = some (paceWithRef t p) := by
  unfold paceWithRefC paceWithRef
  rw [simToRefC_eq, someBind, attemptRatioC_eq, someBind]

/-- The fallback branch of `_analyze_pace` with checked divisions. -/
noncomputable def paceNoRefC (text : String) : Option ℝ :=
  let sentences := sentenceSplit text
  if sentences = [] then some 0
  else
    let wordCounts := (sentences.map (fun s => (pySplit s).length)).filter (fun n => n ≠ 0)
    if wordCounts = [] then some 0
    else do
      let stdDev ←
        if 1 < wordCounts.length then pyStdC (wordCounts.map (fun (n : Nat) => (n : ℚ)))
        else some 0
      some (pyRound2 (max 0 (7 - stdDev * 0.3)))

theorem paceNoRefC_eq (t : String) : paceNoRefC t = some (paceNoRef t) := by
  by_cases h1 : sentenceSplit t = []
  · simp only [paceNoRefC, paceNoRef, if_pos h1]
  · by_cases h2 : ((sentenceSplit t).map (fun s => (pySplit s).length)).filter
        (fun n => n ≠ 0) = []
    · simp only [paceNoRefC, paceNoRef, if_neg h1, if_pos h2]
    · by_cases h3 : 1 < (((sentenceSplit t).map (fun s => (pySplit s).length)).filter
          (fun n => n ≠ 0)).length
      · have hne : (((sentenceSplit t).map (fun s => (pySplit s).length)).filter
            (fun n => n ≠ 0)).map (fun (n : Nat) => (n : ℚ)) ≠ [] := by
          simpa using h2
        simp only [paceNoRefC, paceNoRef, if_neg h1, if_neg h2, if_pos h3,
          pyStdC_eq _ hne, someBind]
      · simp only [paceNoRefC, paceNoRef, if_neg h1, if_neg h2, if_neg h3, someBind]

/-- `_analyze_pace` with checked divisions. -/
noncomputable def paceScoreC (text : String) (op : Option String) : Option ℝ :=
  refDispatch op
    (fun p => do
      let q ← paceWithRefC text p
      some ((q : ℝ)))
    (paceNoRefC text)

theorem paceScoreC_eq (t : String) (op : Option String) :
    paceScoreC t op = some (paceScore t op) := by
  unfold paceScoreC paceScore
  cases op with
  | none => exact paceNoRefC_eq t
  | some p =>
      by_cases hp : p = ""
      · simp only [refDispatch, if_pos hp]
        exact paceNoRefC_eq t
      · simp only [refDispatch, if_neg hp]
        rw [paceWithRefC_eq, someBind]

/-- `_estimate_pronunciation` with checked divisions. -/
def estimatePronunciationC (text : String) (op : Option String) : Option ℚ :=
  refDispatch op (estimateWithRefC text) (some (estimateNoRef text))

theorem estimatePronunciationC_eq (t : String) (op : Option String) :
    estimatePronunciationC t op = some (estimatePronunciation t op) := by
  unfold estimatePronunciationC estimatePronunciation
  cases op with
  | none => rfl
  | some p =>
      by_cases hp : p = ""
      · simp only [refDispatch, if_pos hp]
      · simp only [refDispatch, if_neg hp]
        exact estimateWithRefC_eq t p

/-- The pronunciation dimension of `analyze_speech` with checked divisions. -/
def pronunciationDimC (text : String) (op : Option String) : Option ℚ :=
  refDispatch op
    (fun p => do
      let r ← generatePronunciationReportC text p
      some r.overall_score)
    (estimatePronunciationC text op)

theorem pronunciationDimC_eq (t : String) (op : Option String) :
    pronunciationDimC t op = some (pronunciationDim t op) := by
  unfold pronunciationDimC pronunciationDim
  cases op with
  | none => exact estimatePronunciationC_eq t none
  | some p =>
      by_cases hp : p = ""
      · simp only [refDispatch, if_pos hp]
        exact estimatePronunciationC_eq t (some p)
      · simp only [refDispatch, if_neg hp]
        rw [generatePronunciationReportC_eq, someBind]

/-- `analyze_speech` with every division checked. -/
noncomputable def analyzeSpeechC (transcription : String) (op : Option String) :
    Option SpeechReport :=
  if transcription = "" then
    some { pronunciation := 0, articulation := 0, pace := 0, clarity := 0, emotion := "neutral" }
  else do
    let pron ← pronunciationDimC transcription op
    let art ← articulationScoreC transcription op
    let pc ← paceScoreC transcription op
    let cl ← clarityScoreASC transcription op
    some { pronunciation := pron, articulation := art, pace := pc, clarity := cl,
           emotion := analyzeEmotion transcription }

theorem analyzeSpeechC_eq (t : String) (op : Option String) :
    analyzeSpeechC t op = some (analyzeSpeech t op) := by
  unfold analyzeSpeechC analyzeSpeech
  split_ifs with h
  · rfl
  · rw [pronunciationDimC_eq, someBind, articulationScoreC_eq, someBind,
      paceScoreC_eq, someBind, clarityScoreASC_eq, someBind]

set_option maxRecDepth 8000

theorem matchTotal_nil_left (b : List Char) : matchTotal [] b = 0 := by
  rw [matchTotal.eq_def]
  simp [bestMatch]

/-! ## Claim theorems -/

/-- C8: `_edit_distance` computes the classic Levenshtein distance with unit
costs: it is symmetric, zero on identical strings, and maps
`("kitten", "sitting")` to `3`. -/
theorem c8_edit_distance :
    (∀ a b : String, editDistance a b = editDistance b a) ∧
    (∀ a : String, editDistance a a = 0) ∧
    editDistance "kitten" "sitting" = 3 :=
  ⟨fun a b => by rw [editDistance_eq_levRec, editDistance_eq_levRec, levRec_symm],
   fun a => by rw [editDistance_eq_levRec, levRec_self],
   by decide⟩

/-- C9: the scoring engine is total over string inputs: with every division
routed through a checked division that fails on a zero denominator,
`analyze_speech` and `phoneme_align` still produce exactly their results —
the guards make every error branch unreachable. -/
theorem c9_totality :
    ∀ (t o : String) (op : Option String),
      analyzeSpeechC t op = some (analyzeSpeech t op) ∧
      phonemeAlignC t o = some (phonemeAlign t o) :=
  fun t o op => ⟨analyzeSpeechC_eq t op, phonemeAlignC_eq t o⟩

/-- C10: for a non-empty transcript, an empty-string reference is treated
exactly like an absent reference: `analyze_speech` branches on the truthiness
of the argument, so the no-reference fallbacks run in both cases and the
reports coincide. -/
theorem c10_empty_reference (t : String) (h : t ≠ "") :
    analyzeSpeech t (some "") = analyzeSpeech t none := by
  have hpron : pronunciationDim t (some "") = pronunciationDim t none := by
    simp only [pronunciationDim, estimatePronunciation, refDispatch_empty, refDispatch_none]
  have hart : articulationScore t (some "") = articulationScore t none := by
    simp only [articulationScore, refDispatch_empty, refDispatch_none]
  have hpace : paceScore t (some "") = paceScore t none := by
    simp only [paceScore, refDispatch_empty, refDispatch_none]
  have hclar : clarityScoreAS t (some "") = clarityScoreAS t none := by
    simp only [clarityScoreAS, refDispatch_empty, refDispatch_none]
  unfold analyzeSpeech
  rw [if_neg h, if_neg h, hpron, hart, hpace, hclar]

/-- Witness for C10 at the transcript `"hi"`. -/
theorem c10_empty_reference_witness :
    analyzeSpeech "hi" (some "") = analyzeSpeech "hi" none :=
  c10_empty_reference "hi" (by decide)

/-- C6: for every transcript with at least one word, `_analyze_fluency` is
`max(0, 10 − repetition_ratio·20 − filler_ratio·15)`, scaled by 0.7 below
five words (and rounded to two decimals as in the source); the transcript
`"um um um the the the"` scores exactly 0. -/
theorem c6_fluency_formula :
    (∀ t : String, pySplit (pyLower t) ≠ [] →
      fluencyScoreAS t =
        pyRound2 (if (pySplit (pyLower t)).length < 5 then
            max 0 (10 -
              (repeatedWordCount (pySplit (pyLower t)) : ℚ) /
                ((pySplit (pyLower t)).length : ℚ) * 20 -
              (((pySplit (pyLower t)).countP (fun w => fillerWords.contains w)) : ℚ) /
                ((pySplit (pyLower t)).length : ℚ) * 15) * 0.7
          else
            max 0 (10 -
              (repeatedWordCount (pySplit (pyLower t)) : ℚ) /
                ((pySplit (pyLower t)).length : ℚ) * 20 -
              (((pySplit (pyLower t)).countP (fun w => fillerWords.contains w)) : ℚ) /
                ((pySplit (pyLower t)).length : ℚ) * 15))) ∧
    fluencyScoreAS "um um um the the the" = 0 := by
  constructor
  · intro t h
    have hlenpos : (pySplit (pyLower t)).length > 0 := List.length_pos.mpr h
    have hlen0 : ¬((pySplit (pyLower t)).length = 0) := by omega
    simp only [fluencyScoreAS, if_neg hlen0, if_pos hlenpos]
  · have hw : pySplit (pyLower "um um um the the the") =
        ["um", "um", "um", "the", "the", "the"] := by decide
    have hr : repeatedWordCount ["um", "um", "um", "the", "the", "the"] = 4 := by decide
    have hf : (["um", "um", "um", "the", "the", "the"].countP
        (fun w => fillerWords.contains w)) = 3 := by decide
    rw [fluencyScoreAS, hw]
    simp only [hr, hf, List.length_cons, List.length_nil]
    norm_num
    exact pyRound2_exact 0 (by norm_num)

/-- Witness for C6's formula at the transcript `"a a"`. -/
theorem c6_fluency_formula_witness :
    fluencyScoreAS "a a" =
      pyRound2 (if (pySplit (pyLower "a a")).length < 5 then
          max 0 (10 -
            (repeatedWordCount (pySplit (pyLower "a a")) : ℚ) /
              ((pySplit (pyLower "a a")).length : ℚ) * 20 -
            (((pySplit (pyLower "a a")).countP (fun w => fillerWords.contains w)) : ℚ) /
              ((pySplit (pyLower "a a")).length : ℚ) * 15) * 0.7
        else
          max 0 (10 -
            (repeatedWordCount (pySplit (pyLower "a a")) : ℚ) /
              ((pySplit (pyLower "a a")).length : ℚ) * 20 -
            (((pySplit (pyLower "a a")).countP (fun w => fillerWords.contains w)) : ℚ) /
              ((pySplit (pyLower "a a")).length : ℚ) * 15)) :=
  c6_fluency_formula.1 "a a" (by decide)

/-- The confidence formula exactly as claim C7 states it: the question-mark
term is `question_count / sentence_count` unconditionally, with the sentence
count as the number of `.`-separated segments. -/
def claimedConfidenceC7 (text : String) : ℚ :=
  let words := pySplit (pyLower text)
  let positiveCount := words.countP (fun w => confidentExpressions.any (fun e => strIn e w))
  let negativeCount := words.countP (fun w => uncertainExpressions.any (fun e => strIn e w))
  let questionCount := text.data.count '?'
  let sentenceCount := text.data.count '.' + 1
  max 0 (min 10 (3 + min 2 ((words.length : ℚ) / 20) + (positiveCount : ℚ) * 1.0 -
    (negativeCount : ℚ) * 1.5 - ((questionCount : ℚ) / ((sentenceCount : Nat) : ℚ)) * 2))

/-- Counterexample to C7: the transcript `"Definitely why?"` contains a
question mark but no period, so the source's question ratio is 0 and the score
is 4.1, while the claimed formula subtracts the question term and yields 2.1. -/
theorem c7_counterexample :
    confidenceScore "Definitely why?" = 41/10 ∧
    claimedConfidenceC7 "Definitely why?" = 21/10 ∧
    confidenceScore "Definitely why?" ≠ claimedConfidenceC7 "Definitely why?" := by
  have hw : pySplit (pyLower "Definitely why?") = ["definitely", "why?"] := by decide
  have hp : (["definitely", "why?"].countP
      (fun w => confidentExpressions.any (fun e => strIn e w))) = 1 := by decide
  have hn : (["definitely", "why?"].countP
      (fun w => uncertainExpressions.any (fun e => strIn e w))) = 0 := by decide
  have hqc : "Definitely why?".data.count '?' = 1 := by decide
  have hdc : "Definitely why?".data.count '.' = 0 := by decide
  have hcontains : "Definitely why?".data.contains '.' = false := by decide
  have h1 : confidenceScore "Definitely why?" = 41/10 := by
    rw [confidenceScore, hw]
    simp only [hp, hn, hqc, hcontains, List.length_cons, List.length_nil,
      Bool.false_eq_true, if_false]
    norm_num
    rw [if_neg (by decide : ¬((["definitely", "why?"] : List String) = []))]
    exact pyRound2_exact 410 (by norm_num)
  have h2 : claimedConfidenceC7 "Definitely why?" = 21/10 := by
    rw [claimedConfidenceC7, hw]
    simp only [hp, hn, hqc, hdc, List.length_cons, List.length_nil]
    norm_num
  exact ⟨h1, h2, by rw [h1, h2]; norm_num⟩

/-- C7 (amended): for every transcript with at least one word, the confidence
score is 3 plus `min 2 (word_count/20)`, plus 1 per confidence-word substring
match, minus 1.5 per uncertainty-word substring match, minus twice the
question ratio — where the question ratio is `question_count` divided by the
number of `.`-separated segments when the text contains a period, and 0
otherwise — clamped to [0, 10] and rounded to two decimals. In particular a
transcript with question marks but no period is not reduced. -/
theorem c7_amended (t : String) (h : pySplit (pyLower t) ≠ []) :
    confidenceScore t =
      pyRound2 (max 0 (min 10 (3 + min 2 (((pySplit (pyLower t)).length : ℚ) / 20) +
        (((pySplit (pyLower t)).countP
            (fun w => confidentExpressions.any (fun e => strIn e w))) : ℚ) * 1.0 -
        (((pySplit (pyLower t)).countP
            (fun w => uncertainExpressions.any (fun e => strIn e w))) : ℚ) * 1.5 -
        (if t.data.contains '.' then
            (t.data.count '?' : ℚ) / ((t.data.count '.' + 1 : Nat) : ℚ)
          else 0) * 2))) := by
  simp only [confidenceScore, if_neg h]

/-- Witness for C7's amended formula at the transcript `"Definitely yes."`. -/
theorem c7_amended_witness :
    confidenceScore "Definitely yes." =
      pyRound2 (max 0 (min 10 (3 +
        min 2 (((pySplit (pyLower "Definitely yes.")).length : ℚ) / 20) +
        (((pySplit (pyLower "Definitely yes.")).countP
            (fun w => confidentExpressions.any (fun e => strIn e w))) : ℚ) * 1.0 -
        (((pySplit (pyLower "Definitely yes.")).countP
            (fun w => uncertainExpressions.any (fun e => strIn e w))) : ℚ) * 1.5 -
        (if "Definitely yes.".data.contains '.' then
            ("Definitely yes.".data.count '?' : ℚ) /
              (("Definitely yes.".data.count '.' + 1 : Nat) : ℚ)
          else 0) * 2))) :=
  c7_amended "Definitely yes." (by decide)

theorem countP_filterMap_ite {α β : Type} (q : β → Bool) (f : α → β) (p : α → Prop)
    [DecidablePred p] (l : List α) :
    ((l.filterMap (fun x => if p x then some (f x) else none)).countP q) =
      l.countP (fun x => decide (p x) && q (f x)) := by
  induction l with
  | nil => rfl
  | cons x xs ih =>
      rw [List.filterMap_cons]
      by_cases hx : p x
      · simp only [if_pos hx, List.countP_cons, ih, decide_eq_true hx, Bool.true_and]
      · simp only [if_neg hx, ih, List.countP_cons, decide_eq_false hx, Bool.false_and,
          Bool.and_false]
        simp

theorem countP_enumFrom {α : Type} (f : α → Bool) :
    ∀ (n : Nat) (l : List α), ((List.enumFrom n l).countP (fun q => f q.2)) = l.countP f := by
  intro n l
  induction l generalizing n with
  | nil => rfl
  | cons x xs ih => simp [List.enumFrom, List.countP_cons, ih]

/-- C4: `_detect_phoneme_errors` emits exactly one substitution per differing
position on the common prefix, one deletion per extra trailing reference
character, and one insertion per extra trailing transcript character; and
aligning reference `"the dog"` against transcript `"the cag"` yields exactly
the two substitution errors at positions 0 and 1. -/
theorem c4_phoneme_error_detection :
    (∀ ow tw : String,
      ((detectPhonemeErrors ow tw).countP (fun e => e.kind == "substitution") =
        ((ow.data.zip tw.data).countP (fun p => decide (p.1 ≠ p.2)))) ∧
      ((detectPhonemeErrors ow tw).countP (fun e => e.kind == "deletion") =
        ow.data.length - tw.data.length) ∧
      ((detectPhonemeErrors ow tw).countP (fun e => e.kind == "insertion") =
        tw.data.length - ow.data.length)) ∧
    (phonemeAlign "the cag" "the dog").phoneme_errors =
      [{ position := 0, expected := some 'd', actual := some 'c', kind := "substitution" },
       { position := 1, expected := some 'o', actual := some 'a', kind := "substitution" }] := by
  constructor
  · intro ow tw
    have e1 : (("substitution" : String) == "substitution") = true := by decide
    have e2 : (("substitution" : String) == "deletion") = false := by decide
    have e3 : (("substitution" : String) == "insertion") = false := by decide
    have e4 : (("deletion" : String) == "deletion") = true := by decide
    have e5 : (("deletion" : String) == "substitution") = false := by decide
    have e6 : (("deletion" : String) == "insertion") = false := by decide
    have e7 : (("insertion" : String) == "insertion") = true := by decide
    have e8 : (("insertion" : String) == "substitution") = false := by decide
    have e9 : (("insertion" : String) == "deletion") = false := by decide
    simp only [detectPhonemeErrors]
    rw [List.countP_append, List.countP_append, List.countP_append]
    rw [countP_filterMap_ite, countP_filterMap_ite, countP_filterMap_ite]
    simp only [e1, e2, e3, Bool.and_true, Bool.and_false]
    rw [show List.enum (ow.data.zip tw.data) = List.enumFrom 0 (ow.data.zip tw.data) from rfl]
    rw [countP_enumFrom (fun pr => decide (pr.1 ≠ pr.2)) 0 (ow.data.zip tw.data)]
    have hlo : ow.length = ow.data.length := rfl
    have hlt : tw.length = tw.data.length := rfl
    split_ifs with h1 h2
    · simp [List.countP_map, Function.comp_def, e1, e2, e3, e4, e5, e6, List.countP_true,
        List.countP_false, List.enum_length, List.length_drop, Function.const]
      omega
    · simp [List.countP_map, Function.comp_def, e7, e8, e9, List.countP_true,
        List.countP_false, List.enum_length, List.length_drop, Function.const]
      omega
    · simp [List.countP_nil, Function.const]
      omega
  · have hs1 : pySplit (pyLower "the cag") = ["the", "cag"] := by decide
    have hs2 : pySplit (pyLower "the dog") = ["the", "dog"] := by decide
    have hpairs : ((["the", "dog"] : List String).zip ["the", "cag"]).enum =
        [(0, ("the", "the")), (1, ("dog", "cag"))] := by decide
    have hpre1 : preprocessWord "the" = "the" := by decide
    have hpre2 : preprocessWord "dog" = "dog" := by decide
    have hpre3 : preprocessWord "cag" = "cag" := by decide
    have hed1 : editDistance "the" "the" = 0 := by decide
    have hed2 : editDistance "dog" "cag" = 2 := by decide
    have hsim1 : wordSimilarity "the" "the" = 1 := by
      rw [wordSimilarity, if_neg (by decide), if_neg (by decide), if_neg (by decide), hed1,
        show ("the".data.length) = 3 from by decide]
      norm_num
    have hsim2 : wordSimilarity "dog" "cag" = 1/3 := by
      rw [wordSimilarity, if_neg (by decide), if_neg (by decide), if_neg (by decide), hed2,
        show ("dog".data.length) = 3 from by decide,
        show ("cag".data.length) = 3 from by decide]
      norm_num
    have hdet : detectPhonemeErrors "dog" "cag" =
        [{ position := 0, expected := some 'd', actual := some 'c', kind := "substitution" },
         { position := 1, expected := some 'o', actual := some 'a', kind := "substitution" }] := by
      decide
    rw [phonemeAlign, hs1, hs2]
    simp only [phonemeAlignCore, hpairs]
    simp only [List.flatMap_cons, List.flatMap_nil, hpre1, hpre2, hpre3, hsim1, hsim2]
    norm_num [hdet]

/-- C3: the alignment walks exactly `min(len(reference), len(transcript))`
positions; each entry's similarity is the word similarity of the preprocessed
word pair, its match flag holds exactly when that similarity exceeds 0.7,
word similarity is 1 on two empty words, 0 when exactly one is empty, and
`1 - edit_distance/max-length` otherwise, and the accuracy score is the match
count divided by the reference length (0 for an empty reference). -/
theorem c3_alignment_structure (tl ol : List String) :
    (phonemeAlignCore tl ol).word_matches.length = min ol.length tl.length ∧
    (∀ i (h : i < (phonemeAlignCore tl ol).word_matches.length),
      ((phonemeAlignCore tl ol).word_matches.get ⟨i, h⟩).similarity =
          wordSimilarity (preprocessWord (ol.getD i "")) (preprocessWord (tl.getD i "")) ∧
        (((phonemeAlignCore tl ol).word_matches.get ⟨i, h⟩).matched = true ↔
          ((phonemeAlignCore tl ol).word_matches.get ⟨i, h⟩).similarity > 0.7)) ∧
    (∀ w1 w2 : String,
      wordSimilarity w1 w2 =
        if w1 = "" ∧ w2 = "" then 1
        else if w1 = "" ∨ w2 = "" then 0
        else 1 - (editDistance w1 w2 : ℚ) / ((max w1.data.length w2.data.length : Nat) : ℚ)) ∧
    (phonemeAlignCore tl ol).accuracy_score =
      (if ol = [] then 0
       else (((phonemeAlignCore tl ol).word_matches.countP (fun m => m.matched)) : ℚ) /
         (ol.length : ℚ)) := by
  have hwm : (phonemeAlignCore tl ol).word_matches =
      ((ol.zip tl).enum.map (fun p =>
        ({ original := p.2.1, transcribed := p.2.2,
           similarity := wordSimilarity (preprocessWord p.2.1) (preprocessWord p.2.2),
           matched := if wordSimilarity (preprocessWord p.2.1) (preprocessWord p.2.2) > 0.7
                      then true else false } : WordMatch))) := rfl
  refine ⟨?_, ?_, ?_, ?_⟩
  · rw [hwm]
    simp [List.length_map, List.enum_length, List.length_zip]
  · intro i h
    have hi : i < (ol.zip tl).length := by
      rw [hwm] at h
      simpa using h
    have hio : i < ol.length := by
      rw [List.length_zip] at hi
      omega
    have hit : i < tl.length := by
      rw [List.length_zip] at hi
      omega
    have hget : (phonemeAlignCore tl ol).word_matches.get ⟨i, h⟩ =
        ({ original := ol[i], transcribed := tl[i],
           similarity := wordSimilarity (preprocessWord ol[i]) (preprocessWord tl[i]),
           matched := if wordSimilarity (preprocessWord ol[i]) (preprocessWord tl[i]) > 0.7
                      then true else false } : WordMatch) := by
      rw [List.get_eq_getElem]
      rw [List.getElem_of_eq hwm]
      rw [List.getElem_map, List.getElem_enum, List.getElem_zip]
    rw [hget]
    rw [List.getD_eq_getElem ol "" hio, List.getD_eq_getElem tl "" hit]
    refine ⟨rfl, ?_⟩
    split_ifs with hc
    · simpa using hc
    · simpa using hc
  · intro w1 w2
    rw [wordSimilarity]
    split_ifs with h1 h2 h3
    · rfl
    · rfl
    · exfalso
      push_neg at h2
      have hne : w1.data ≠ [] := by
        intro hd
        exact h2.1 (by cases w1; simp_all)
      have : 0 < w1.data.length := List.length_pos.mpr hne
      omega
    · rw [Nat.cast_max]
  · rfl

/-- Witness for C3 at the singleton alignment of `["cat"]` with `["cat"]`. -/
theorem c3_alignment_structure_witness :
    ((phonemeAlignCore ["cat"] ["cat"]).word_matches.get ⟨0, by decide⟩).similarity =
      wordSimilarity (preprocessWord ((["cat"] : List String).getD 0 ""))
        (preprocessWord ((["cat"] : List String).getD 0 "")) :=
  ((c3_alignment_structure ["cat"] ["cat"]).2.1 0 (by decide)).1

/-- Maximum of a list of naturals (0 on the empty list). -/
def natListMax : List Nat → Nat
  | [] => 0
  | n :: ns => max n (natListMax ns)

def claimedEmotionC5 (text : String) : String :=
  let words := pySplit (pyLower text)
  let counts := emotionKeywords.map (fun p => (p.1, words.countP (fun w => p.2.contains w)))
  if natListMax (counts.map Prod.snd) = 0 then
    let posCount := words.countP (fun w => positiveIndicators.contains w)
    let negCount := words.countP (fun w => negativeIndicators.contains w)
    if posCount > negCount then "positive"
    else if negCount > posCount then "negative"
    else "neutral"
  else
    match counts.find? (fun p => p.2 == natListMax (counts.map Prod.snd)) with
    | some p => p.1
    | none => "neutral"

theorem natListMax_attained : ∀ (l : List Nat), l ≠ [] → natListMax l ∈ l := by
  intro l
  induction l with
  | nil => intro h; exact absurd rfl h
  | cons n ns ih =>
      intro _
      by_cases hns : ns = []
      · subst hns
        simp [natListMax]
      · by_cases h : natListMax ns ≤ n
        · have : natListMax (n :: ns) = n := by simp [natListMax]; omega
          rw [this]; exact List.mem_cons_self n ns
        · have : natListMax (n :: ns) = natListMax ns := by simp [natListMax]; omega
          rw [this]
          exact List.mem_cons_of_mem n (ih hns)

theorem find_max_isSome (L : List (String × Nat)) (h : L ≠ []) :
    (L.find? (fun p => p.2 == natListMax (L.map Prod.snd))).isSome := by
  rw [List.find?_isSome]
  have hmap : L.map Prod.snd ≠ [] := by simpa using h
  have := natListMax_attained (L.map Prod.snd) hmap
  obtain ⟨p, hp, he⟩ := List.mem_map.mp this
  exact ⟨p, hp, by simp [he]⟩

theorem foldl_max_eq_find :
    ∀ (l : List (String × Nat)) (a : String × Nat),
      l.foldl (fun best q => if best.2 < q.2 then q else best) a =
        ((a :: l).find? (fun p => p.2 == natListMax ((a :: l).map Prod.snd))).getD a := by
  intro l
  induction l with
  | nil =>
      intro a
      simp [List.find?, natListMax]
  | cons x xs ih =>
      intro a
      rw [List.foldl_cons]
      by_cases hx : a.2 < x.2
      · rw [if_pos hx, ih x]
        have hM : natListMax ((a :: x :: xs).map Prod.snd) =
            natListMax ((x :: xs).map Prod.snd) := by
          simp only [List.map_cons, natListMax]
          omega
        have haM : a.2 ≠ natListMax ((x :: xs).map Prod.snd) := by
          simp only [List.map_cons, natListMax]
          omega
        have hb := beq_eq_false_iff_ne.mpr haM
        rw [hM]
        conv_rhs => rw [@List.find?_cons_of_neg _
          (fun p => p.2 == natListMax ((x :: xs).map Prod.snd)) a (x :: xs)
          (by simpa using haM)]
        obtain ⟨v, hv⟩ := Option.isSome_iff_exists.mp (find_max_isSome (x :: xs) (by simp))
        rw [hv]
        rfl
      · rw [if_neg hx, ih a]
        have hxa : x.2 ≤ a.2 := by omega
        have hM : natListMax ((a :: x :: xs).map Prod.snd) =
            natListMax ((a :: xs).map Prod.snd) := by
          simp only [List.map_cons, natListMax]
          omega
        rw [hM]
        by_cases ha : a.2 = natListMax ((a :: xs).map Prod.snd)
        · conv_lhs => rw [@List.find?_cons_of_pos _
            (fun p => p.2 == natListMax ((a :: xs).map Prod.snd)) a xs (by simpa using ha)]
          conv_rhs => rw [@List.find?_cons_of_pos _
            (fun p => p.2 == natListMax ((a :: xs).map Prod.snd)) a (x :: xs)
            (by simpa using ha)]
        · have haup : a.2 ≤ natListMax ((a :: xs).map Prod.snd) := by
            simp only [List.map_cons, natListMax]
            omega
          have hxM : x.2 ≠ natListMax ((a :: xs).map Prod.snd) := by omega
          have hna := beq_eq_false_iff_ne.mpr ha
          have hnx := beq_eq_false_iff_ne.mpr hxM
          conv_lhs => rw [@List.find?_cons_of_neg _
            (fun p => p.2 == natListMax ((a :: xs).map Prod.snd)) a xs (by simpa using ha)]
          conv_rhs => rw [@List.find?_cons_of_neg _
            (fun p => p.2 == natListMax ((a :: xs).map Prod.snd)) a (x :: xs)
            (by simpa using ha),
            @List.find?_cons_of_neg _
            (fun p => p.2 == natListMax ((a :: xs).map Prod.snd)) x xs
            (by simpa using hxM)]

theorem emotion_select_eq (counts : List (String × Nat)) (hc : counts ≠ [])
    (fallback : String) :
    (if (pyMaxPair counts).2 = 0 then fallback else (pyMaxPair counts).1) =
      (if natListMax (counts.map Prod.snd) = 0 then fallback
       else match counts.find? (fun p => p.2 == natListMax (counts.map Prod.snd)) with
            | some p => p.1
            | none => "neutral") := by
  cases counts with
  | nil => exact absurd rfl hc
  | cons c cs =>
      show (if (cs.foldl (fun best q => if best.2 < q.2 then q else best) c).2 = 0 then _
        else (cs.foldl (fun best q => if best.2 < q.2 then q else best) c).1) = _
      rw [foldl_max_eq_find cs c]
      obtain ⟨v, hv⟩ := Option.isSome_iff_exists.mp (find_max_isSome (c :: cs) (by simp))
      rw [hv]
      have hveq : v.2 = natListMax ((c :: cs).map Prod.snd) := by
        have := List.find?_some hv
        simpa using this
      rw [Option.getD_some, hveq]


/-- The emotion classification procedure exactly as claim C5 states it: count
tokens in the six fixed keyword lists, return the first label attaining the
maximal count in the fixed order; if all six counts are zero, compare positive
and negative indicator counts. -/
theorem c5_emotion_classifier :
    (∀ t : String, t ≠ "" → analyzeEmotion t = claimedEmotionC5 t) ∧
    analyzeEmotion "I am so happy and excited" = "joy" ∧
    analyzeEmotion "The meeting is at noon" = "neutral" := by
  refine ⟨?_, by decide, by decide⟩
  intro t ht
  simp only [analyzeEmotion, claimedEmotionC5, if_neg ht]
  exact emotion_select_eq _ (by simp [emotionKeywords]) _

/-- Witness for C5 at the transcript `"happy day"`. -/
theorem c5_emotion_classifier_witness :
    analyzeEmotion "happy day" = claimedEmotionC5 "happy day" :=
  c5_emotion_classifier.1 "happy day" (by decide)

theorem max0_nonneg {α : Type} [LinearOrderedField α] (x : α) : 0 ≤ max 0 x := le_max_left 0 x

theorem max0_le {α : Type} [LinearOrderedField α] (x c : α) (h : x ≤ c) (h0 : 0 ≤ c) :
    max 0 x ≤ c := max_le h0 h

theorem simToRef_nonneg (t p : String) : 0 ≤ simToRef t p := seqRatio_nonneg _ _

theorem simToRef_le_one (t p : String) : simToRef t p ≤ 1 := seqRatio_le_one _ _

theorem clarityScorePA_bounds (t o : String) :
    0 ≤ clarityScorePA t o ∧ clarityScorePA t o ≤ 10 := by
  simp only [clarityScorePA]
  split_ifs with h1 h2 h3
  · norm_num
  · norm_num
  · refine ⟨le_min (by norm_num) (by positivity), min_le_left _ _⟩
  · refine ⟨le_min (by norm_num) (by positivity), min_le_left _ _⟩

theorem fluencyScorePA_bounds (t : String) :
    0 ≤ fluencyScorePA t ∧ fluencyScorePA t ≤ 10 := by
  simp only [fluencyScorePA]
  split_ifs with h1
  · norm_num
  · have hlen : 0 < (pySplit t).length := List.length_pos.mpr h1
    have hlq : (0:ℚ) < ((pySplit t).length : ℚ) := by exact_mod_cast hlen
    have hded : ((pySplit t).dedup.length : ℚ) ≤ ((pySplit t).length : ℚ) := by
      exact_mod_cast (pySplit t).dedup_sublist.length_le
    have hp1 : (0:ℚ) ≤ min 3 ((1 - ((pySplit t).dedup.length : ℚ) / ((pySplit t).length : ℚ)) * 10) := by
      apply le_min (by norm_num)
      have : ((pySplit t).dedup.length : ℚ) / ((pySplit t).length : ℚ) ≤ 1 := by
        rw [div_le_one hlq]
        exact hded
      nlinarith
    have hp2 : (0:ℚ) ≤ min 2
        ((((pySplit t).countP (fun w => fillersPA.contains (pyLower w))) : ℚ) /
          ((pySplit t).length : ℚ) * 8) := by
      apply le_min (by norm_num)
      positivity
    exact ⟨le_max_left 0 _, max0_le _ _ (by linarith) (by norm_num)⟩

theorem phonemeAlignCore_accuracy_bounds (tl ol : List String) :
    0 ≤ (phonemeAlignCore tl ol).accuracy_score ∧
      (phonemeAlignCore tl ol).accuracy_score ≤ 1 := by
  have hwm : (phonemeAlignCore tl ol).word_matches.length = min ol.length tl.length := by
    show ((ol.zip tl).enum.map _).length = _
    simp [List.length_map, List.enum_length, List.length_zip]
  have hacc : (phonemeAlignCore tl ol).accuracy_score =
      if ol = [] then 0
      else (((phonemeAlignCore tl ol).word_matches.countP (fun m => m.matched)) : ℚ) /
        (ol.length : ℚ) := rfl
  rw [hacc]
  split_ifs with h
  · norm_num
  · have hlen : 0 < ol.length := List.length_pos.mpr h
    have hlq : (0:ℚ) < (ol.length : ℚ) := by exact_mod_cast hlen
    have hcount : (phonemeAlignCore tl ol).word_matches.countP (fun m => m.matched) ≤
        ol.length := by
      calc (phonemeAlignCore tl ol).word_matches.countP (fun m => m.matched) ≤
            (phonemeAlignCore tl ol).word_matches.length := List.countP_le_length _
        _ = min ol.length tl.length := hwm
        _ ≤ ol.length := min_le_left _ _
    constructor
    · positivity
    · rw [div_le_one hlq]
      exact_mod_cast hcount

theorem pronunciationScoring_bounds (t o : String) :
    (0 ≤ (pronunciationScoring t o (phonemeAlign t o)).overall ∧
      (pronunciationScoring t o (phonemeAlign t o)).overall ≤ 10) ∧
    (0 ≤ (pronunciationScoring t o (phonemeAlign t o)).clarity ∧
      (pronunciationScoring t o (phonemeAlign t o)).clarity ≤ 10) ∧
    (0 ≤ (pronunciationScoring t o (phonemeAlign t o)).fluency ∧
      (pronunciationScoring t o (phonemeAlign t o)).fluency ≤ 10) ∧
    (0 ≤ (pronunciationScoring t o (phonemeAlign t o)).accuracy ∧
      (pronunciationScoring t o (phonemeAlign t o)).accuracy ≤ 10) := by
  obtain ⟨hc0, hc10⟩ := clarityScorePA_bounds t o
  obtain ⟨hf0, hf10⟩ := fluencyScorePA_bounds t
  obtain ⟨ha0, ha1⟩ := phonemeAlignCore_accuracy_bounds (pySplit (pyLower t)) (pySplit (pyLower o))
  have ha0' : 0 ≤ (phonemeAlign t o).accuracy_score := ha0
  have ha1' : (phonemeAlign t o).accuracy_score ≤ 1 := ha1
  refine ⟨?_, ?_, ?_, ?_⟩
  · exact pyRound2_bounds _ (by nlinarith) (by nlinarith)
  · exact pyRound2_bounds _ hc0 hc10
  · exact pyRound2_bounds _ hf0 hf10
  · exact pyRound2_bounds _ (by nlinarith) (by nlinarith)

theorem estimateWithRef_bounds (t p : String) :
    0 ≤ estimateWithRef t p ∧ estimateWithRef t p ≤ 10 := by
  simp only [estimateWithRef]
  have hs0 := simToRef_nonneg t p
  have ha0 := attemptRatio_nonneg t p
  have hbase : (0:ℚ) ≤ (simToRef t p * 0.7 + attemptRatio t p * 0.3) * 10 := by nlinarith
  apply pyRound2_bounds
  · apply le_min (by norm_num)
    split_ifs with h
    · exact le_max_of_le_right (by norm_num)
    · exact hbase
  · exact min_le_left _ _

theorem estimateNoRef_bounds (t : String) :
    0 ≤ estimateNoRef t ∧ estimateNoRef t ≤ 10 := by
  simp only [estimateNoRef]
  split_ifs with h1 h2 h3
  · norm_num
  · norm_num
  · norm_num
  · have h10 : (10:ℚ) ≤ ((pySplit t).length : ℚ) := by exact_mod_cast not_lt.mp h3
    constructor
    · apply le_min (by norm_num)
      nlinarith
    · calc min 9 (6 + (((pySplit t).length : ℚ) - 10) * 0.3) ≤ 9 := min_le_left _ _
        _ ≤ 10 := by norm_num

theorem estimatePronunciation_bounds (t : String) (op : Option String) :
    0 ≤ estimatePronunciation t op ∧ estimatePronunciation t op ≤ 10 := by
  rw [estimatePronunciation]
  cases op with
  | none => exact estimateNoRef_bounds t
  | some p =>
      by_cases hp : p = ""
      · simp only [refDispatch, if_pos hp]
        exact estimateNoRef_bounds t
      · simp only [refDispatch, if_neg hp]
        exact estimateWithRef_bounds t p

theorem pronunciationDim_bounds (t : String) (op : Option String) :
    0 ≤ pronunciationDim t op ∧ pronunciationDim t op ≤ 10 := by
  rw [pronunciationDim]
  cases op with
  | none => exact estimatePronunciation_bounds t none
  | some p =>
      by_cases hp : p = ""
      · simp only [refDispatch, if_pos hp]
        exact estimatePronunciation_bounds t (some p)
      · simp only [refDispatch, if_neg hp]
        exact (pronunciationScoring_bounds t p).1

theorem articulationWithRef_bounds (t p : String) :
    0 ≤ articulationWithRef t p ∧ articulationWithRef t p ≤ 10 := by
  simp only [articulationWithRef]
  have hs0 := simToRef_nonneg t p
  have hs1 := simToRef_le_one t p
  have ha0 := attemptRatio_nonneg t p
  have ha1 := attemptRatio_le_one t p
  apply pyRound2_bounds
  · split_ifs with h
    · exact le_max_of_le_right (by norm_num)
    · nlinarith
  · split_ifs with h
    · exact max_le (by nlinarith) (by norm_num)
    · nlinarith

theorem articulationNoRef_bounds (t : String) :
    0 ≤ articulationNoRef t ∧ articulationNoRef t ≤ 10 := by
  simp only [articulationNoRef]
  apply pyRound2_bounds
  · exact max0_nonneg _
  · apply max0_le _ _ ?_ (by norm_num)
    have h1 : (0:ℚ) ≤ (((pySplit t).countP
        (fun w => unclearIndicators.contains (pyLower w))) : ℚ) / ((pySplit t).length : ℚ) := by
      positivity
    have h2 : (0:ℚ) ≤ (((pySplit t).countP
        (fun w => w.data.length ≤ 2 && !(shortWordAllowList.contains (pyLower w)))) : ℚ) /
        ((pySplit t).length : ℚ) := by
      positivity
    nlinarith

theorem articulationScore_bounds (t : String) (op : Option String) :
    0 ≤ articulationScore t op ∧ articulationScore t op ≤ 10 := by
  rw [articulationScore]
  split_ifs with h
  · norm_num
  · cases op with
    | none => exact articulationNoRef_bounds t
    | some p =>
        by_cases hp : p = ""
        · simp only [refDispatch, if_pos hp]
          exact articulationNoRef_bounds t
        · simp only [refDispatch, if_neg hp]
          exact articulationWithRef_bounds t p

theorem clarityWithRef_bounds (t p : String) :
    0 ≤ clarityWithRef t p ∧ clarityWithRef t p ≤ 10 := by
  simp only [clarityWithRef]
  have hs0 := simToRef_nonneg t p
  have hs1 := simToRef_le_one t p
  have ha0 := attemptRatio_nonneg t p
  have ha1 := attemptRatio_le_one t p
  apply pyRound2_bounds
  · split_ifs with h
    · exact le_max_of_le_right (by norm_num)
    · nlinarith
  · split_ifs with h
    · exact max_le (by nlinarith) (by norm_num)
    · nlinarith

theorem meanQ_nonneg_ofNat (l : List Nat) : 0 ≤ meanQ (l.map (fun (n : Nat) => (n : ℚ))) := by
  rw [meanQ]
  apply div_nonneg
  · apply List.sum_nonneg
    intro x hx
    obtain ⟨n, _, rfl⟩ := List.mem_map.mp hx
    exact Nat.cast_nonneg n
  · exact Nat.cast_nonneg _

theorem clarity_base_bounds (A : ℚ) :
    0 ≤ (if 8 ≤ A ∧ A ≤ 15 then (8:ℚ)
         else if A < 8 then max 0 (8 - (8 - A) * 1.0) else max 0 (8 - (A - 15) * 0.5)) ∧
      (if 8 ≤ A ∧ A ≤ 15 then (8:ℚ)
       else if A < 8 then max 0 (8 - (8 - A) * 1.0) else max 0 (8 - (A - 15) * 0.5)) ≤ 8 := by
  split_ifs with hb1 hb2
  · norm_num
  · exact ⟨max0_nonneg _, max0_le _ _ (by linarith) (by norm_num)⟩
  · have h15 : ¬ A ≤ 15 := fun hle => hb1 ⟨not_lt.mp hb2, hle⟩
    have := not_le.mp h15
    exact ⟨max0_nonneg _, max0_le _ _ (by linarith) (by norm_num)⟩

theorem clarity_adjust_bounds (B : ℚ) (n : Nat) (h0 : 0 ≤ B) (h8 : B ≤ 8) :
    0 ≤ (if 2 ≤ n then min 10 (B + 1.5) else if n = 1 then max 0 (B - 1) else B) ∧
      (if 2 ≤ n then min 10 (B + 1.5) else if n = 1 then max 0 (B - 1) else B) ≤ 10 := by
  split_ifs with hs1 hs2
  · exact ⟨le_min (by norm_num) (by linarith), min_le_left _ _⟩
  · exact ⟨max0_nonneg _, max0_le _ _ (by linarith) (by norm_num)⟩
  · exact ⟨h0, by linarith⟩

theorem clarityNoRef_bounds (t : String) :
    0 ≤ clarityNoRef t ∧ clarityNoRef t ≤ 10 := by
  simp only [clarityNoRef]
  by_cases h1 : ((sentenceSplit t).map (fun s => (pySplit s).length)).filter
      (fun n => n ≠ 0) = []
  · rw [if_pos h1]
    norm_num
  · rw [if_neg h1]
    have hb := clarity_base_bounds (meanQ (((((sentenceSplit t).map
      (fun s => (pySplit s).length)).filter (fun n => n ≠ 0))).map (fun (n : Nat) => (n : ℚ))))
    have ha := clarity_adjust_bounds _ (sentenceSplit t).length hb.1 hb.2
    exact pyRound2_bounds _ ha.1 ha.2

theorem clarityScoreAS_bounds (t : String) (op : Option String) :
    0 ≤ clarityScoreAS t op ∧ clarityScoreAS t op ≤ 10 := by
  rw [clarityScoreAS]
  split_ifs with h
  · norm_num
  · cases op with
    | none => exact clarityNoRef_bounds t
    | some p =>
        by_cases hp : p = ""
        · simp only [refDispatch, if_pos hp]
          exact clarityNoRef_bounds t
        · simp only [refDispatch, if_neg hp]
          exact clarityWithRef_bounds t p

theorem paceWithRef_bounds (t p : String) :
    0 ≤ paceWithRef t p ∧ paceWithRef t p ≤ 10 := by
  simp only [paceWithRef]
  have hs0 := simToRef_nonneg t p
  have hs1 := simToRef_le_one t p
  have ha0 := attemptRatio_nonneg t p
  have ha1 := attemptRatio_le_one t p
  apply pyRound2_bounds
  · split_ifs with h
    · exact le_max_of_le_right (by norm_num)
    · nlinarith
  · split_ifs with h
    · exact max_le (by nlinarith) (by norm_num)
    · nlinarith

theorem paceNoRef_bounds (t : String) :
    0 ≤ paceNoRef t ∧ paceNoRef t ≤ 10 := by
  simp only [paceNoRef]
  by_cases h1 : sentenceSplit t = []
  · rw [if_pos h1]
    norm_num
  · rw [if_neg h1]
    by_cases h2 : ((sentenceSplit t).map (fun s => (pySplit s).length)).filter
        (fun n => n ≠ 0) = []
    · rw [if_pos h2]
      norm_num
    · rw [if_neg h2]
      have hstd : (0:ℝ) ≤ (if 1 < (((sentenceSplit t).map (fun s => (pySplit s).length)).filter
          (fun n => n ≠ 0)).length then
            pyStd ((((sentenceSplit t).map (fun s => (pySplit s).length)).filter
              (fun n => n ≠ 0)).map (fun (n : Nat) => (n : ℚ)))
          else 0) := by
        split_ifs with h3
        · exact Real.sqrt_nonneg _
        · norm_num
      apply pyRound2_bounds
      · exact max0_nonneg _
      · exact max0_le _ _ (by nlinarith) (by norm_num)

theorem paceScore_bounds (t : String) (op : Option String) :
    0 ≤ paceScore t op ∧ paceScore t op ≤ 10 := by
  rw [paceScore]
  cases op with
  | none => exact paceNoRef_bounds t
  | some p =>
      by_cases hp : p = ""
      · simp only [refDispatch, if_pos hp]
        exact paceNoRef_bounds t
      · simp only [refDispatch, if_neg hp]
        obtain ⟨h0, h10⟩ := paceWithRef_bounds t p
        constructor
        · exact_mod_cast h0
        · exact_mod_cast h10

theorem fluencyScoreAS_bounds (t : String) :
    0 ≤ fluencyScoreAS t ∧ fluencyScoreAS t ≤ 10 := by
  simp only [fluencyScoreAS]
  split_ifs with h1 h2 h3
  · norm_num
  · have hr0 : (0:ℚ) ≤ (repeatedWordCount (pySplit (pyLower t)) : ℚ) /
        ((pySplit (pyLower t)).length : ℚ) * 20 := by positivity
    have hf0 : (0:ℚ) ≤ (((pySplit (pyLower t)).countP (fun w => fillerWords.contains w)) : ℚ) /
        ((pySplit (pyLower t)).length : ℚ) * 15 := by positivity
    apply pyRound2_bounds
    · nlinarith [max0_nonneg (10 - (repeatedWordCount (pySplit (pyLower t)) : ℚ) /
        ((pySplit (pyLower t)).length : ℚ) * 20 -
        (((pySplit (pyLower t)).countP (fun w => fillerWords.contains w)) : ℚ) /
        ((pySplit (pyLower t)).length : ℚ) * 15)]
    · have hle := max0_le (10 - (repeatedWordCount (pySplit (pyLower t)) : ℚ) /
        ((pySplit (pyLower t)).length : ℚ) * 20 -
        (((pySplit (pyLower t)).countP (fun w => fillerWords.contains w)) : ℚ) /
        ((pySplit (pyLower t)).length : ℚ) * 15) 10 (by linarith) (by norm_num)
      nlinarith [max0_nonneg (10 - (repeatedWordCount (pySplit (pyLower t)) : ℚ) /
        ((pySplit (pyLower t)).length : ℚ) * 20 -
        (((pySplit (pyLower t)).countP (fun w => fillerWords.contains w)) : ℚ) /
        ((pySplit (pyLower t)).length : ℚ) * 15)]
  · omega
  · have hr0 : (0:ℚ) ≤ (repeatedWordCount (pySplit (pyLower t)) : ℚ) /
        ((pySplit (pyLower t)).length : ℚ) * 20 := by positivity
    have hf0 : (0:ℚ) ≤ (((pySplit (pyLower t)).countP (fun w => fillerWords.contains w)) : ℚ) /
        ((pySplit (pyLower t)).length : ℚ) * 15 := by positivity
    apply pyRound2_bounds
    · exact max0_nonneg _
    · exact max0_le _ _ (by linarith) (by norm_num)
  · omega

theorem confidenceScore_bounds (t : String) :
    0 ≤ confidenceScore t ∧ confidenceScore t ≤ 10 := by
  simp only [confidenceScore]
  split_ifs with h1 h2
  · norm_num
  all_goals
    exact pyRound2_bounds _ (max0_nonneg _) (max0_le _ _ (min_le_left _ _) (by norm_num))

/-- C2: For every transcript and every reference (present or absent), every
numeric dimension score produced by the scoring engine — the pronunciation,
articulation, pace and clarity fields of the report returned by analyze_speech,
the fluency and confidence scores, and the comprehensive report's
overall/clarity/fluency/accuracy scores — lies in the closed interval [0, 10]. -/
theorem c2_score_ranges (t r : String) (op : Option String) :
    (0 ≤ (analyzeSpeech t op).pronunciation ∧ (analyzeSpeech t op).pronunciation ≤ 10) ∧
    (0 ≤ (analyzeSpeech t op).articulation ∧ (analyzeSpeech t op).articulation ≤ 10) ∧
    (0 ≤ (analyzeSpeech t op).pace ∧ (analyzeSpeech t op).pace ≤ 10) ∧
    (0 ≤ (analyzeSpeech t op).clarity ∧ (analyzeSpeech t op).clarity ≤ 10) ∧
    (0 ≤ fluencyScoreAS t ∧ fluencyScoreAS t ≤ 10) ∧
    (0 ≤ confidenceScore t ∧ confidenceScore t ≤ 10) ∧
    (0 ≤ (pronunciationScoring t r (phonemeAlign t r)).overall ∧
      (pronunciationScoring t r (phonemeAlign t r)).overall ≤ 10) ∧
    (0 ≤ (pronunciationScoring t r (phonemeAlign t r)).clarity ∧
      (pronunciationScoring t r (phonemeAlign t r)).clarity ≤ 10) ∧
    (0 ≤ (pronunciationScoring t r (phonemeAlign t r)).fluency ∧
      (pronunciationScoring t r (phonemeAlign t r)).fluency ≤ 10) ∧
    (0 ≤ (pronunciationScoring t r (phonemeAlign t r)).accuracy ∧
      (pronunciationScoring t r (phonemeAlign t r)).accuracy ≤ 10) := by
  obtain ⟨ho, hc, hf, ha⟩ := pronunciationScoring_bounds t r
  by_cases h : t = ""
  · subst h
    refine ⟨?_, ?_, ?_, ?_, fluencyScoreAS_bounds "", confidenceScore_bounds "",
      ho, hc, hf, ha⟩ <;> norm_num [analyzeSpeech]
  · simp only [analyzeSpeech, if_neg h]
    exact ⟨pronunciationDim_bounds t op, articulationScore_bounds t op,
      paceScore_bounds t op, clarityScoreAS_bounds t op,
      fluencyScoreAS_bounds t, confidenceScore_bounds t, ho, hc, hf, ha⟩

/-- The pronunciation formula exactly as claim C1 states it for a present
reference: sequence similarity (reference vs transcript, lowercased) weighted
0.7 plus attempt ratio weighted 0.3, scaled to 10, raised to at least 5 when
the attempt ratio exceeds 0.5 and the similarity exceeds 0.4, and clamped to
[0, 10]. -/
def claimedPronunciationC1 (t r : String) : ℚ :=
  let sim := simToRef t r
  let ar : ℚ :=
    if (pySplit r).length = 0 then 1
    else min 1 (((pySplit t).length : ℚ) / ((pySplit r).length : ℚ))
  let score := (sim * 0.7 + ar * 0.3) * 10
  let score2 := if ar > 0.5 ∧ sim > 0.4 then max score 5 else score
  max 0 (min 10 score2)

set_option maxRecDepth 8000 in
/-- Counterexample to C1: at transcript = reference = `"hello hello"`,
analyze_speech's pronunciation dimension is the comprehensive report's overall
score 9.1, while the claimed similarity/attempt formula evaluates to 10. -/
theorem c1_counterexample :
    (analyzeSpeech "hello hello" (some "hello hello")).pronunciation = 91/10 ∧
    claimedPronunciationC1 "hello hello" "hello hello" = 10 ∧
    (analyzeSpeech "hello hello" (some "hello hello")).pronunciation ≠
      claimedPronunciationC1 "hello hello" "hello hello" := by
  have hsp : pySplit (pyLower "hello hello") = ["hello", "hello"] := by decide
  have hsp2 : pySplit "hello hello" = ["hello", "hello"] := by decide
  have hded : (["hello", "hello"] : List String).dedup = ["hello"] := by decide
  have hint : ((["hello"] : List String).filter
      (fun w => (["hello"] : List String).contains w)).length = 1 := by decide
  have huni : ((["hello"] : List String) ++
      (["hello"] : List String).filter
        (fun w => !(["hello"] : List String).contains w)).length = 1 := by decide
  have hpos : ((["hello", "hello"] : List String).zip ["hello", "hello"]).countP
      (fun p => p.1 == p.2) = 2 := by decide
  have hcl : clarityScorePA "hello hello" "hello hello" = 10 := by
    simp only [clarityScorePA, hsp, hded, hint, huni, hpos]
    rw [if_neg (by decide : ¬(["hello"] : List String) = [])]
    rw [if_neg (by norm_num : ¬(1 : Nat) = 0)]
    rw [if_pos (by decide : (["hello", "hello"] : List String) ≠ [])]
    norm_num
  have hfc : (["hello", "hello"] : List String).countP
      (fun w => fillersPA.contains (pyLower w)) = 0 := by decide
  have hfl : fluencyScorePA "hello hello" = 7 := by
    simp only [fluencyScorePA, hsp2, hded, hfc]
    rw [if_neg (by decide : ¬(["hello", "hello"] : List String) = [])]
    norm_num [min_def, max_def]
  have hpairs : ((["hello", "hello"] : List String).zip ["hello", "hello"]).enum =
      [(0, ("hello", "hello")), (1, ("hello", "hello"))] := by decide
  have hpre : preprocessWord "hello" = "hello" := by decide
  have hed : editDistance "hello" "hello" = 0 := by decide
  have hws : wordSimilarity "hello" "hello" = 1 := by
    rw [wordSimilarity, if_neg (by decide), if_neg (by decide), if_neg (by decide), hed,
      show ("hello".data.length) = 5 from by decide]
    norm_num
  have hacc : (phonemeAlign "hello hello" "hello hello").accuracy_score = 1 := by
    rw [phonemeAlign, hsp]
    simp only [phonemeAlignCore, hpairs]
    simp only [List.map_cons, List.map_nil, hpre, hws]
    rw [if_neg (by decide : ¬(["hello", "hello"] : List String) = [])]
    norm_num [List.countP_cons, List.countP_nil]
  have h1 : (analyzeSpeech "hello hello" (some "hello hello")).pronunciation = 91/10 := by
    rw [analyzeSpeech, if_neg (by decide : ¬("hello hello" : String) = "")]
    change pronunciationDim "hello hello" (some "hello hello") = _
    simp only [pronunciationDim, refDispatch]
    rw [if_neg (by decide : ¬("hello hello" : String) = "")]
    simp only [generatePronunciationReport, pronunciationScoring]
    rw [hcl, hfl, hacc]
    rw [show ((10 : ℚ) * 0.4 + 7 * 0.3 + 1 * 10 * 0.3) = 91/10 from by norm_num]
    exact pyRound2_exact 910 (by norm_num)
  have hlow : pyLower "hello hello" = "hello hello" := by decide
  have hbm : bestMatch "hello hello".data "hello hello".data = (0, 0, 11) := by decide
  have hmt : matchTotal "hello hello".data "hello hello".data = 11 := by
    rw [matchTotal.eq_def, hbm]
    rw [if_neg (by norm_num)]
    rw [show List.take (0, 0, 11).1 "hello hello".data = ([] : List Char) from rfl]
    rw [show List.drop ((0, 0, 11).1 + (0, 0, 11).2.2) "hello hello".data = ([] : List Char)
      from by decide]
    simp only [matchTotal_nil_left]
  have hseq : seqRatio "hello hello" "hello hello" = 1 := by
    rw [seqRatio, if_neg (by decide), hmt]
    rw [show ("hello hello".data.length) = 11 from by decide]
    norm_num
  have h2 : claimedPronunciationC1 "hello hello" "hello hello" = 10 := by
    simp only [claimedPronunciationC1, simToRef, hlow, hseq, hsp2, List.length_cons,
      List.length_nil]
    rw [if_neg (by norm_num : ¬(2 : Nat) = 0)]
    rw [if_pos (by constructor <;> norm_num [min_def] :
      min 1 (((2 : Nat) : ℚ) / ((2 : Nat) : ℚ)) > 0.5 ∧ (1 : ℚ) > 0.4)]
    norm_num [min_def, max_def]
  exact ⟨h1, h2, by rw [h1, h2]; norm_num⟩

/-- C1 (amended): for every non-empty transcript and non-empty reference,
analyze_speech's pronunciation dimension equals the comprehensive report's
overall score, round2(clarity*0.4 + fluency*0.3 + (accuracy*10)*0.3); the
similarity/attempt formula lives in _estimate_pronunciation, which rounds
min(10, score) with the floor override and which analyze_speech consults only
when no reference is available. -/
theorem c1_amended (t r : String) (ht : t ≠ "") (hr : r ≠ "") :
    (analyzeSpeech t (some r)).pronunciation =
      pyRound2 (clarityScorePA t r * 0.4 + fluencyScorePA t * 0.3 +
        ((phonemeAlign t r).accuracy_score * 10) * 0.3) ∧
    estimatePronunciation t (some r) =
      pyRound2 (min 10
        (if attemptRatio t r > 0.5 ∧ simToRef t r > 0.4 then
          max ((simToRef t r * 0.7 + attemptRatio t r * 0.3) * 10) 5
        else (simToRef t r * 0.7 + attemptRatio t r * 0.3) * 10)) := by
  constructor
  · rw [analyzeSpeech, if_neg ht]
    change pronunciationDim t (some r) = _
    simp only [pronunciationDim, refDispatch]
    rw [if_neg hr]
    simp only [generatePronunciationReport, pronunciationScoring]
  · rw [estimatePronunciation]
    simp only [refDispatch]
    rw [if_neg hr]
    simp only [estimateWithRef]

/-- Witness for C1's amended statement at transcript `"hello"` and reference
`"hello"`. -/
theorem c1_amended_witness :
    (analyzeSpeech "hello" (some "hello")).pronunciation =
      pyRound2 (clarityScorePA "hello" "hello" * 0.4 + fluencyScorePA "hello" * 0.3 +
        ((phonemeAlign "hello" "hello").accuracy_score * 10) * 0.3) ∧
    estimatePronunciation "hello" (some "hello") =
      pyRound2 (min 10
        (if attemptRatio "hello" "hello" > 0.5 ∧ simToRef "hello" "hello" > 0.4 then
          max ((simToRef "hello" "hello" * 0.7 + attemptRatio "hello" "hello" * 0.3) * 10) 5
        else (simToRef "hello" "hello" * 0.7 + attemptRatio "hello" "hello" * 0.3) * 10)) :=
  c1_amended "hello" "hello" (by decide) (by decide)
